import Mathlib

/-!
Verification of the olevba macro-extraction engine (`tools/oletools/olevba.py`)
against its natural-language specification.

The Python source is shallowly embedded: byte strings become `List Nat`
(one entry per byte), Python text strings become `List Char` (each char is a
byte value, since Python 2 `str` is a byte string), fallible code returns
`Except`/`Option`, and unbounded loops are driven by an explicit fuel
argument that is always chosen at call sites to dominate the loop's real
bound.
-/

namespace Olevba

/-- Little-endian 16-bit read of the first two bytes, `struct.unpack("<H", s[i:i+2])`.
Returns `none` when fewer than two bytes are available (Python raises
`struct.error` in that case). -/
def readLE16 : List Nat → Option Nat
  | a :: b :: _ => some (a + 256 * b)
  | _ => none

/-- `l[i]` for a byte list, with Python's exact bounds behaviour: a
non-negative index must be `< length`, a negative index counts from the end
and must satisfy `length + i ≥ 0`; otherwise Python raises `IndexError`. -/
def pyIndex (l : List Nat) (i : Int) : Option Nat :=
  if 0 ≤ i then
    if h2 : i.toNat < l.length then some (l.get ⟨i.toNat, h2⟩) else none
  else
    if (0 : Int) ≤ (l.length : Int) + i then
      if h3 : ((l.length : Int) + i).toNat < l.length then
        some (l.get ⟨((l.length : Int) + i).toNat, h3⟩)
      else none
    else none

/-! ## Compression codec (MS-OVBA 2.4.1), `decompress_stream` / `copytoken_help` -/

/-- The distinct failure modes of `decompress_stream`.  In the Python source
all of them surface as exceptions: the first four are the explicitly raised
`ValueError`s (the spec's `FormatError` taxonomy), while `mathDomain` is the
`ValueError: math domain error` escaping from `math.log(difference, 2)` when
`difference` is zero, `negativeShift` is the `ValueError` from `>>` with a
negative count when `bit_count > 16`, and `structError`/`indexError` come
from short reads and out-of-range indexing. -/
inductive DecompErr
  | invalidSignatureByte
  | invalidChunkSignature
  | compressedChunkTooLarge
  | rawChunkSizeInvalid
  | mathDomain
  | negativeShift
  | structError
  | indexError
  | fuelOut
deriving DecidableEq, Repr

/-- Fuel-driven binary length: `bitLenAux fuel n` is the number of binary
digits of `n` whenever `n ≤ fuel` (kernel-computable, unlike `Nat.clog`). -/
def bitLenAux : Nat → Nat → Nat
  | 0, _ => 0
  | fuel + 1, n => if n = 0 then 0 else bitLenAux fuel (n / 2) + 1

/-- Computable ceiling of log2: `ceilLog2 d = ⌈log2 d⌉` for `d ≥ 1`
(and 0 at 0).  Proved equal to `Nat.clog 2` below. -/
def ceilLog2 (d : Nat) : Nat := bitLenAux (d - 1) (d - 1)

lemma bitLenAux_le_iff : ∀ (fuel n m : Nat), n ≤ fuel → (bitLenAux fuel n ≤ m ↔ n < 2 ^ m) := by
  intro fuel
  induction fuel with
  | zero =>
    intro n m hn
    have hn0 : n = 0 := by omega
    subst hn0
    simp [bitLenAux]
  | succ fuel ih =>
    intro n m hn
    by_cases h0 : n = 0
    · subst h0
      simp [bitLenAux]
    · simp only [bitLenAux, h0, if_false]
      match m with
      | 0 =>
        simp
        omega
      | m + 1 =>
        have hrec : n / 2 ≤ fuel := by omega
        rw [Nat.succ_le_succ_iff, ih (n / 2) m hrec, pow_succ]
        omega

lemma ceilLog2_eq_clog (d : Nat) : ceilLog2 d = Nat.clog 2 d := by
  refine eq_of_forall_ge_iff fun m => ?_
  rw [ceilLog2, bitLenAux_le_iff (d - 1) (d - 1) m le_rfl]
  rw [← Nat.le_pow_iff_clog_le (by omega)]
  have hp : 1 ≤ 2 ^ m := Nat.one_le_two_pow
  omega

/-- `copytoken_help(decompressed_current, decompressed_chunk_start)`:
compute the CopyToken masks from the number of bytes decompressed since the
start of the current decompressed chunk.

The source computes `bit_count = int(math.ceil(math.log(difference, 2)))` in
floating point; for every `difference` from 1 up to beyond 2^24 this equals
the exact `Nat.clog 2 difference` (the first floating-point divergence is at
difference = 2^29, far above what `decompress_stream` can produce inside one
chunk), so the embedding uses the exact value.  `math.log(0, 2)` raises
`ValueError: math domain error`, modelled by the `mathDomain` error.

`offset_mask = ~length_mask` is a Python arbitrary-precision complement; it
is only ever used as `copy_token & offset_mask` with `copy_token < 2^16`, for
which it coincides with the 16-bit complement `0xFFFF ^^^ length_mask` used
here.  Returns (length_mask, offset_mask, bit_count, maximum_length). -/
def copytoken_help (decompressedCurrent decompressedChunkStart : Nat) :
    Except DecompErr (Nat × Nat × Nat × Nat) :=
  let difference := decompressedCurrent - decompressedChunkStart
  if difference = 0 then .error .mathDomain
  else
    let bitCount := max (ceilLog2 difference) 4
    let lengthMask := 0xFFFF >>> bitCount
    let offsetMask := 0xFFFF ^^^ lengthMask
    let maximumLength := (0xFFFF >>> bitCount) + 3
    .ok (lengthMask, offsetMask, bitCount, maximumLength)

/-- Copy `n` bytes one at a time, each appended before the next is read
(`for index in xrange(copy_source, copy_source + length):
decompressed_container += decompressed_container[index]`).  Because the
buffer grows as it is read, the source range may overlap the destination,
which is what lets `length` exceed `offset` and produce repeating runs. -/
def copyBytes : Nat → Int → List Nat → Except DecompErr (List Nat)
  | 0, _, acc => .ok acc
  | n + 1, idx, acc =>
    match pyIndex acc idx with
    | none => .error .indexError
    | some b => copyBytes n (idx + 1) (acc ++ [b])

/-- One CopyToken (lines 1054-1069 of the source): decode length and offset
from the 16-bit token using `copytoken_help`, then append `length` bytes
starting from `output_length - offset`. -/
def copyTokenStep (dec : List Nat) (chunkStart : Nat) (copyToken : Nat) :
    Except DecompErr (List Nat) :=
  match copytoken_help dec.length chunkStart with
  | .error e => .error e
  | .ok (lengthMask, offsetMask, bitCount, _maximumLength) =>
    let length := (copyToken &&& lengthMask) + 3
    let temp1 := copyToken &&& offsetMask
    if 16 < bitCount then .error .negativeShift
    else
      let temp2 := 16 - bitCount
      let offset := (temp1 >>> temp2) + 1
      let copySource : Int := (dec.length : Int) - (offset : Int)
      copyBytes length copySource dec

/-- The per-token loop of a TokenSequence: `bits` tokens remain in the
current flag byte (8 at the start of each group).  `cc` is
`compressed_current`; the loop stops as soon as `cc ≥ compressed_end`. -/
def tokenBits (input : List Nat) (cEnd : Nat) (chunkStart : Nat) :
    Nat → Nat → Nat → List Nat → Except DecompErr (List Nat × Nat)
  | 0, _fb, cc, dec => .ok (dec, cc)
  | bits + 1, fb, cc, dec =>
    if cc < cEnd then
      let flagBit := (fb >>> (8 - (bits + 1))) &&& 1
      if flagBit = 0 then
        tokenBits input cEnd chunkStart bits fb (cc + 1) (dec ++ [input.getD cc 0])
      else
        match readLE16 (input.drop cc) with
        | none => .error .structError
        | some copyToken =>
          match copyTokenStep dec chunkStart copyToken with
          | .error e => .error e
          | .ok dec2 => tokenBits input cEnd chunkStart bits fb (cc + 2) dec2
    else .ok (dec, cc)

/-- The TokenSequence loop of one compressed chunk: while
`compressed_current < compressed_end`, read a flag byte and process its
eight tokens. -/
def tokenSeq (input : List Nat) (cEnd : Nat) (chunkStart : Nat) :
    Nat → Nat → List Nat → Except DecompErr (List Nat × Nat)
  | 0, _cc, _dec => .error .fuelOut
  | fuel + 1, cc, dec =>
    if cc < cEnd then
      let fb := input.getD cc 0
      match tokenBits input cEnd chunkStart 8 fb (cc + 1) dec with
      | .error e => .error e
      | .ok (dec2, cc2) => tokenSeq input cEnd chunkStart fuel cc2 dec2
    else .ok (dec, cc)

/-- The chunk-size invariant checks of the source (lines 1012-1015): a
compressed chunk must not declare more than 4098 bytes, a raw chunk must
declare exactly 4098. -/
def chunkSizeCheck (chunkFlag chunkSize : Nat) : Option DecompErr :=
  if chunkFlag = 1 ∧ 4098 < chunkSize then some .compressedChunkTooLarge
  else if chunkFlag = 0 ∧ chunkSize ≠ 4098 then some .rawChunkSizeInvalid
  else none

/-- The outer chunk loop of `decompress_stream`: while
`compressed_current < len(compressed_container)`, read a 16-bit chunk
header, validate it, and decompress a raw or compressed chunk. -/
def chunkLoop (input : List Nat) : Nat → Nat → List Nat → Except DecompErr (List Nat)
  | 0, _cc, _dec => .error .fuelOut
  | fuel + 1, cc, dec =>
    if cc < input.length then
      let cs := cc
      match readLE16 (input.drop cs) with
      | none => .error .structError
      | some header =>
        let chunkSize := (header &&& 0x0FFF) + 3
        let chunkSignature := (header >>> 12) &&& 0x07
        if chunkSignature ≠ 0b011 then .error .invalidChunkSignature
        else
          let chunkFlag := (header >>> 15) &&& 1
          match chunkSizeCheck chunkFlag chunkSize with
          | some e => .error e
          | none =>
            -- a declared size past the end of the input is only logged;
            -- the read is clamped to the available bytes
            let cEnd := min input.length (cs + chunkSize)
            let cc2 := cs + 2
            if chunkFlag = 0 then
              chunkLoop input fuel (cc2 + 4096) (dec ++ (input.drop cc2).take 4096)
            else
              match tokenSeq input cEnd dec.length (input.length + 1) cc2 dec with
              | .error e => .error e
              | .ok (dec2, cc3) => chunkLoop input fuel cc3 dec2
    else .ok dec

/-- `decompress_stream(compressed_container)`: check the 0x01 signature byte
then run the chunk loop over the rest of the container. -/
def decompress_stream (input : List Nat) : Except DecompErr (List Nat) :=
  match input with
  | [] => .error .indexError
  | sig :: _ =>
    if sig ≠ 0x01 then .error .invalidSignatureByte
    else chunkLoop input (input.length + 1) 1 []

/-! ### Spec-side formulas for the copy-token decoding (claim C1)

These three definitions transcribe the spec's stated formulas — bit width
max(4, ceil(log2 d)), length `(token AND (0xFFFF >> bit_count)) + 3` and
offset `((token AND NOT(0xFFFF >> bit_count)) >> (16 - bit_count)) + 1`
(NOT taken within 16 bits, hence the XOR with 0xFFFF) — to be compared
against the embedded `copyTokenStep`. -/

def specBitCount (d : Nat) : Nat := max 4 (Nat.clog 2 d)

def specCopyLength (token bc : Nat) : Nat := (token &&& (0xFFFF >>> bc)) + 3

def specCopyOffset (token bc : Nat) : Nat :=
  ((token &&& (0xFFFF ^^^ (0xFFFF >>> bc))) >>> (16 - bc)) + 1

lemma copyBytes_spec (n : Nat) :
    ∀ (acc : List Nat) (i : Nat), i < acc.length →
    ∃ r, copyBytes n (i : Int) acc = .ok r ∧ r.length = acc.length + n ∧
      r.take acc.length = acc ∧
      ∀ j < n, r[acc.length + j]? = r[i + j]? := by
  induction n with
  | zero =>
    intro acc i _
    refine ⟨acc, ?_, ?_, ?_, ?_⟩
    · rfl
    · simp
    · simp
    · intro j hj
      exact absurd hj (by omega)
  | succ n ih =>
    intro acc i hi
    have hb : pyIndex acc (i : Int) = some (acc.get ⟨i, hi⟩) := by
      simp [pyIndex, hi]
    set b := acc.get ⟨i, hi⟩ with hbdef
    have hstep : copyBytes (n + 1) (i : Int) acc = copyBytes n ((i + 1 : Nat) : Int) (acc ++ [b]) := by
      simp only [copyBytes, hb]
      norm_num
    have hi' : i + 1 < (acc ++ [b]).length := by
      simp
      omega
    obtain ⟨r, hr, hlen, htake, hidx⟩ := ih (acc ++ [b]) (i + 1) hi'
    have hagree : ∀ k, k < (acc ++ [b]).length → r[k]? = (acc ++ [b])[k]? := by
      intro k hk
      rw [← htake, List.getElem?_take_of_lt hk]
    refine ⟨r, by rw [hstep]; exact hr, by simp at hlen; omega, ?_, ?_⟩
    · have h1 : r.take acc.length = (r.take (acc ++ [b]).length).take acc.length := by
        rw [List.take_take, min_eq_left (by simp)]
      rw [h1, htake]
      simpa using List.take_left acc [b]
    · intro j hj
      match j with
      | 0 =>
        have h1 : r[acc.length]? = some b := by
          rw [hagree acc.length (by simp)]
          simp
        have h2 : r[i]? = some b := by
          rw [hagree i (by simp; omega)]
          rw [List.getElem?_append, if_pos hi]
          rw [List.getElem?_eq_getElem hi]
          rfl
        simpa using h1.trans h2.symm
      | j + 1 =>
        have h3 := hidx j (by omega)
        simp only [List.length_append, List.length_cons, List.length_nil] at h3
        have e1 : acc.length + (j + 1) = acc.length + 1 + j := by omega
        have e2 : i + (j + 1) = i + 1 + j := by omega
        rw [e1, e2]
        simpa using h3

/-- C1: for every copy token inside a compressed chunk, with `d` the number
of bytes decompressed since the start of the current decompressed chunk, the
decoder uses bit width `max(4, ceil(log2 d))`, decodes
`length = (token AND (0xFFFF >> bit_count)) + 3` and
`offset = ((token AND NOT(0xFFFF >> bit_count)) >> (16 - bit_count)) + 1`,
and appends `length` bytes one at a time starting at position
`output_length - offset`, so the source range may overlap the bytes being
produced (`length` may exceed `offset`, giving repeating patterns).  The
final buffer satisfies `r[out + j] = r[out - offset + j]` for each copied
byte, which is exactly the overlapping byte-by-byte semantics. -/
theorem claim_C1_copytoken (dec : List Nat) (chunkStart token : Nat)
    (hd : 1 ≤ dec.length - chunkStart)
    (hbc : specBitCount (dec.length - chunkStart) ≤ 16)
    (hoff : specCopyOffset token (specBitCount (dec.length - chunkStart)) ≤ dec.length) :
    ∃ r, copyTokenStep dec chunkStart token = .ok r ∧
      r.length = dec.length + specCopyLength token (specBitCount (dec.length - chunkStart)) ∧
      r.take dec.length = dec ∧
      ∀ j < specCopyLength token (specBitCount (dec.length - chunkStart)),
        r[dec.length + j]? =
          r[dec.length - specCopyOffset token (specBitCount (dec.length - chunkStart)) + j]? := by
  have hmax : max (ceilLog2 (dec.length - chunkStart)) 4 = specBitCount (dec.length - chunkStart) := by
    rw [ceilLog2_eq_clog]
    exact Nat.max_comm _ _
  have hdiff : dec.length - chunkStart ≠ 0 := by omega
  have hio : specCopyOffset token (specBitCount (dec.length - chunkStart)) ≥ 1 := by
    simp [specCopyOffset]
  have hcast : (dec.length : Int) - (specCopyOffset token (specBitCount (dec.length - chunkStart)) : Int)
      = ((dec.length - specCopyOffset token (specBitCount (dec.length - chunkStart)) : Nat) : Int) := by
    omega
  obtain ⟨r, hr, hlen, htake, hidx⟩ :=
    copyBytes_spec (specCopyLength token (specBitCount (dec.length - chunkStart))) dec
      (dec.length - specCopyOffset token (specBitCount (dec.length - chunkStart))) (by omega)
  refine ⟨r, ?_, hlen, htake, fun j hj => hidx j hj⟩
  have harg : ((dec.length : Int) -
      (((token &&& (65535 ^^^ 65535 >>> specBitCount (dec.length - chunkStart))) >>>
        (16 - specBitCount (dec.length - chunkStart)) + 1 : Nat) : Int)) =
      ((dec.length - specCopyOffset token (specBitCount (dec.length - chunkStart)) : Nat) : Int) := by
    have hgoal : specCopyOffset token (specBitCount (dec.length - chunkStart)) =
        ((token &&& (65535 ^^^ 65535 >>> specBitCount (dec.length - chunkStart))) >>>
          (16 - specBitCount (dec.length - chunkStart))) + 1 := by
      simp [specCopyOffset]
    rw [hgoal] at hoff ⊢
    push_cast
    omega
  simp only [copyTokenStep, copytoken_help, hdiff, if_false, hmax]
  rw [if_neg (show ¬ 16 < specBitCount (dec.length - chunkStart) by omega)]
  rw [harg]
  rw [show specCopyLength token (specBitCount (dec.length - chunkStart)) =
      (token &&& 65535 >>> specBitCount (dec.length - chunkStart)) + 3 from rfl] at hr
  exact hr

theorem claim_C1_copytoken_witness :
    1 ≤ ([65] : List Nat).length - 0 ∧
    specBitCount (([65] : List Nat).length - 0) ≤ 16 ∧
    specCopyOffset 3 (specBitCount (([65] : List Nat).length - 0)) ≤ ([65] : List Nat).length ∧
    copyTokenStep [65] 0 3 = .ok [65, 65, 65, 65, 65, 65, 65] ∧
    (∃ r, copyTokenStep [65] 0 3 = .ok r ∧
      r.length = ([65] : List Nat).length + specCopyLength 3 (specBitCount (([65] : List Nat).length - 0)) ∧
      r.take ([65] : List Nat).length = [65] ∧
      ∀ j < specCopyLength 3 (specBitCount (([65] : List Nat).length - 0)),
        r[([65] : List Nat).length + j]? =
          r[([65] : List Nat).length - specCopyOffset 3 (specBitCount (([65] : List Nat).length - 0)) + j]?) :=
  ⟨by decide,
   by simp only [specBitCount, ← ceilLog2_eq_clog]; decide,
   by simp only [specBitCount, specCopyOffset, ← ceilLog2_eq_clog]; decide,
   by rfl,
   claim_C1_copytoken [65] 0 3 (by decide)
     (by simp only [specBitCount, ← ceilLog2_eq_clog]; decide)
     (by simp only [specBitCount, specCopyOffset, ← ceilLog2_eq_clog]; decide)⟩

/-- C2: the chunk-header size invariants.  A compressed-flag chunk whose
declared total size exceeds 4098 is rejected (this guard is literally in the
code even though a 12-bit size field + 3 can never exceed 4098); a raw-flag
chunk declaring exactly 4098 is accepted and its payload is copied verbatim;
a raw-flag chunk declaring 4097 raises the format error. -/
theorem claim_C2_chunk_size (sz : Nat) (hsz : 4098 < sz) :
    chunkSizeCheck 1 sz = some .compressedChunkTooLarge ∧
    decompress_stream [0x01, 0xFF, 0x3F, 65, 66, 67, 68] = .ok [65, 66, 67, 68] ∧
    decompress_stream [0x01, 0xFE, 0x3F] = .error .rawChunkSizeInvalid := by
  refine ⟨?_, by rfl, by rfl⟩
  simp [chunkSizeCheck, hsz]

theorem claim_C2_chunk_size_witness :
    4098 < 4099 ∧
    (chunkSizeCheck 1 4099 = some .compressedChunkTooLarge ∧
     decompress_stream [0x01, 0xFF, 0x3F, 65, 66, 67, 68] = .ok [65, 66, 67, 68] ∧
     decompress_stream [0x01, 0xFE, 0x3F] = .error .rawChunkSizeInvalid) :=
  ⟨by omega, claim_C2_chunk_size 4099 (by omega)⟩

/-- C10: any well-signed stream whose first compressed chunk starts with a
copy token (flag byte with lowest bit set) makes `copytoken_help` take the
logarithm of zero, and `decompress_stream` fails with the math-domain error
(`ValueError: math domain error` from `math.log`), which is none of the
four explicitly raised format errors.  Hence the codec is only total when
every compressed chunk emits at least one literal byte before its first
copy token. -/
theorem claim_C10_copy_token_first (h fb t0 t1 : Nat) (rest : List Nat)
    (hh : h < 65536)
    (hsig : (h >>> 12) &&& 7 = 3)
    (hflag : (h >>> 15) &&& 1 = 1)
    (hsz : 1 ≤ h &&& 0xFFF)
    (hfb : fb &&& 1 = 1) :
    decompress_stream (0x01 :: (h &&& 0xFF) :: (h >>> 8) :: fb :: t0 :: t1 :: rest) =
      .error .mathDomain := by
  have hread : (h &&& 0xFF) + 256 * (h >>> 8) = h := by
    have e1 : h &&& 0xFF = h % 256 := by
      have e := Nat.and_pow_two_sub_one_eq_mod h 8
      norm_num at e
      omega
    have e2 : h >>> 8 = h / 2 ^ 8 := Nat.shiftRight_eq_div_pow h 8
    norm_num at e2
    omega
  have hf2 : h >>> 15 % 2 = 1 := by
    rw [← Nat.and_one_is_mod]
    exact hflag
  have hfb2 : fb % 2 = 1 := by
    rw [← Nat.and_one_is_mod]
    exact hfb
  have hszle : h &&& 0xFFF ≤ 4095 := Nat.and_le_right
  simp only [decompress_stream, List.length_cons]
  norm_num
  rw [chunkLoop]
  simp only [List.length_cons, List.drop_succ_cons, List.drop_zero, readLE16, hread]
  have hc1 : 1 < rest.length + 5 + 1 := by omega
  simp only [hc1, if_true, hsig]
  norm_num
  simp only [hf2, chunkSizeCheck]
  have hno : ¬ (4098 < (h &&& 0xFFF) + 3) := by omega
  norm_num [hno]
  rw [tokenSeq]
  have hc2 : 3 < min (rest.length + 5 + 1) (1 + ((h &&& 0xFFF) + 3)) := by
    refine lt_min (by omega) (by omega)
  simp only [hc2, if_true]
  norm_num [List.getD]
  rw [show (8 : Nat) = 7 + 1 from rfl, tokenBits]
  have hc3 : 4 < min (rest.length + 5 + 1) (1 + ((h &&& 0xFFF) + 3)) := by
    refine lt_min (by omega) (by omega)
  simp only [hc3, if_true]
  norm_num [hfb2, readLE16, copyTokenStep, copytoken_help]

theorem claim_C10_copy_token_first_witness :
    0xB001 < 65536 ∧ ((0xB001 : Nat) >>> 12) &&& 7 = 3 ∧ ((0xB001 : Nat) >>> 15) &&& 1 = 1 ∧
    1 ≤ (0xB001 : Nat) &&& 0xFFF ∧ (1 : Nat) &&& 1 = 1 ∧
    decompress_stream (0x01 :: ((0xB001 : Nat) &&& 0xFF) :: ((0xB001 : Nat) >>> 8) ::
      1 :: 0 :: 0 :: []) = .error .mathDomain :=
  ⟨by decide, by decide, by decide, by decide, by decide,
   claim_C10_copy_token_first 0xB001 1 0 0 []
     (by decide) (by decide) (by decide) (by decide) (by decide)⟩

/-! ## Directory-stream reference array (`_extract_vba`, lines 1256-1343)

The decompressed `dir` stream is consumed through a `cStringIO` file object;
`read(n)` returns up to `n` bytes (short at EOF) and `struct.unpack` raises
`struct.error` on a short buffer.  The reference-array loop switches on each
record's leading 2-byte tag; the recognized tags are 0x0016 (NAME), 0x0033
(ORIGINAL), 0x002F (CONTROL), 0x000D (REGISTERED), 0x000E (PROJECT), and
0x000F terminates the array (the PROJECTMODULES record follows).  Any other
tag hits `log.error(...)` followed by `sys.exit(0)` — a process exit, not a
raised exception. -/

/-- `struct.unpack("<H", stream.read(2))`: 16-bit little-endian read off the
front of the stream. -/
def readU16 : List Nat → Option (Nat × List Nat)
  | a :: b :: r => some (a + 256 * b, r)
  | _ => none

/-- `struct.unpack("<L", stream.read(4))`: 32-bit little-endian read. -/
def readU32 : List Nat → Option (Nat × List Nat)
  | a :: b :: c :: d :: r => some (a + 256 * b + 65536 * c + 16777216 * d, r)
  | _ => none

/-- REFERENCENAME record body (after the 0x0016 tag). -/
def parseREFERENCENAME (s : List Nat) : Option (List Nat) := do
  let (szName, s) ← readU32 s
  let s := s.drop szName
  let (_reserved, s) ← readU16 s
  let (szNameUnicode, s) ← readU32 s
  pure (s.drop szNameUnicode)

/-- REFERENCEORIGINAL record body (after the 0x0033 tag). -/
def parseREFERENCEORIGINAL (s : List Nat) : Option (List Nat) := do
  let (szLibidOriginal, s) ← readU32 s
  pure (s.drop szLibidOriginal)

/-- REFERENCECONTROL record body (after the 0x002F tag), including the
optional extended-name sub-record sniffed via a 0x0016 tag. -/
def parseREFERENCECONTROL (s : List Nat) : Option (List Nat) := do
  let (_sizeTwiddled, s) ← readU32 s
  let (szLibidTwiddled, s) ← readU32 s
  let s := s.drop szLibidTwiddled
  let (_reserved1, s) ← readU32 s
  let (_reserved2, s) ← readU16 s
  let (check2, s) ← readU16 s
  let s ← (if check2 = 0x0016 then do
      let (szName, s) ← readU32 s
      let s := s.drop szName
      let (_reservedN, s) ← readU16 s
      let (szNameUnicode, s) ← readU32 s
      let s := s.drop szNameUnicode
      let (_reserved3, s) ← readU16 s
      pure s
    else pure s)
  let (_sizeExtended, s) ← readU32 s
  let (szLibidExtended, s) ← readU32 s
  let s := s.drop szLibidExtended
  let (_reserved4, s) ← readU32 s
  let (_reserved5, s) ← readU16 s
  let s := s.drop 16
  let (_cookie, s) ← readU32 s
  pure s

/-- REFERENCEREGISTERED record body (after the 0x000D tag). -/
def parseREFERENCEREGISTERED (s : List Nat) : Option (List Nat) := do
  let (_size, s) ← readU32 s
  let (szLibid, s) ← readU32 s
  let s := s.drop szLibid
  let (_reserved1, s) ← readU32 s
  let (_reserved2, s) ← readU16 s
  pure s

/-- REFERENCEPROJECT record body (after the 0x000E tag). -/
def parseREFERENCEPROJECT (s : List Nat) : Option (List Nat) := do
  let (_size, s) ← readU32 s
  let (szLibidAbsolute, s) ← readU32 s
  let s := s.drop szLibidAbsolute
  let (szLibidRelative, s) ← readU32 s
  let s := s.drop szLibidRelative
  let (_majorVersion, s) ← readU32 s
  let (_minorVersion, s) ← readU16 s
  pure s

/-- Outcome of the reference-array loop.  `processExit` is the embedding of
`sys.exit(0)` at line 1343 of the source: the Python process terminates
(with a success status!) instead of raising a `FormatError`-style exception
— and `extract_macros` wraps `_extract_vba` in no try/except, so even an
exception there would abort the sibling projects of the same file. -/
inductive RefParseResult
  | modulesSentinel (rest : List Nat)
  | processExit (tag : Nat)
  | structError
  | fuelOut
deriving DecidableEq, Repr

/-- The `while True` loop over the array of REFERENCE records. -/
def parseReferenceArray : Nat → List Nat → RefParseResult
  | 0, _ => .fuelOut
  | fuel + 1, s =>
    match readU16 s with
    | none => .structError
    | some (check, s1) =>
      if check = 0x000F then .modulesSentinel s1
      else if check = 0x0016 then
        match parseREFERENCENAME s1 with
        | none => .structError
        | some s2 => parseReferenceArray fuel s2
      else if check = 0x0033 then
        match parseREFERENCEORIGINAL s1 with
        | none => .structError
        | some s2 => parseReferenceArray fuel s2
      else if check = 0x002F then
        match parseREFERENCECONTROL s1 with
        | none => .structError
        | some s2 => parseReferenceArray fuel s2
      else if check = 0x000D then
        match parseREFERENCEREGISTERED s1 with
        | none => .structError
        | some s2 => parseReferenceArray fuel s2
      else if check = 0x000E then
        match parseREFERENCEPROJECT s1 with
        | none => .structError
        | some s2 => parseReferenceArray fuel s2
      else .processExit check

lemma parseReferenceArray_unknown_tag (fuel : Nat) (lo hi : Nat) (rest : List Nat)
    (hne : ∀ t ∈ [0x000F, 0x0016, 0x0033, 0x002F, 0x000D, 0x000E], lo + 256 * hi ≠ t) :
    parseReferenceArray (fuel + 1) (lo :: hi :: rest) = .processExit (lo + 256 * hi) := by
  simp only [List.mem_cons, List.mem_singleton, List.not_mem_nil] at hne
  simp only [parseReferenceArray, readU16]
  have h1 := hne 0x000F (by norm_num)
  have h2 := hne 0x0016 (by norm_num)
  have h3 := hne 0x0033 (by norm_num)
  have h4 := hne 0x002F (by norm_num)
  have h5 := hne 0x000D (by norm_num)
  have h6 := hne 0x000E (by norm_num)
  simp [h1, h2, h3, h4, h5, h6]

/-- C4 is a code bug: on a reference record whose leading 2-byte tag is none
of the recognized tags and not the module-array sentinel (here 0x002B at the
head of the reference array), the source does not raise a `FormatError` — it
executes `log.error(...); sys.exit(0)` (olevba.py lines 1342-1343),
terminating the entire process with a success exit code, which aborts every
sibling module and sibling container as well.  The spec's design notes
(§9) themselves flag this process-exit as unintentional. -/
theorem claim_C4_unknown_reference_tag :
    parseReferenceArray 1 [0x2B, 0x00] = .processExit 0x002B ∧
    RefParseResult.processExit 0x002B ≠ .structError := by
  constructor
  · exact parseReferenceArray_unknown_tag 0 0x2B 0 [] (by decide)
  · decide

/-! ## ActiveMime / MSO unwrapping (`mso_file_extract`, lines 839-892)

`zlib.decompress` is an external library call; the embedding abstracts it as
a function `inflate : List Nat → Option (List Nat)` applied to the suffix
`data[start:]`, `none` standing for any exception (caught by the bare
`except`). -/

/-- Generic: does the second list start with the first? -/
def startsWithL : List Nat → List Nat → Bool
  | [], _ => true
  | _ :: _, [] => false
  | p :: ps, x :: xs => p = x && startsWithL ps xs

/-- The `'ActiveMime'` magic, as bytes. -/
def MSO_ACTIVEMIME_HEADER : List Nat :=
  [0x41, 0x63, 0x74, 0x69, 0x76, 0x65, 0x4D, 0x69, 0x6D, 0x65]

/-- `is_mso_file(data)`: check the ActiveMime magic at the start. -/
def is_mso_file (data : List Nat) : Bool := startsWithL MSO_ACTIVEMIME_HEADER data

/-- Every position whose byte is 0x78 ('x'), in order — the candidates
produced by `re_zlib_header.finditer(data)`. -/
def zlibPositions (data : List Nat) : List Nat :=
  (List.range data.length).filter (fun i => data.getD i 0 = 0x78)

/-- Try inflation at each offset in turn, returning the first success —
the shape of both retry loops in `mso_file_extract`. -/
def tryOffsets (inflate : List Nat → Option (List Nat)) (data : List Nat) :
    List Nat → Option (List Nat)
  | [] => none
  | o :: rest =>
    match inflate (data.drop o) with
    | some out => some out
    | none => tryOffsets inflate data rest

/-- Failure modes of `mso_file_extract`: the failed `assert is_mso_file`,
the `RuntimeError` re-raised when the 16-bit header read fails, and the
final `RuntimeError('Unable to decompress data from a MSO/ActiveMime
file')` when every candidate offset fails to inflate (the spec's terminal
`FormatError` for this component). -/
inductive MsoErr
  | assertionError
  | headerStructError
  | noZlibCandidate
deriving DecidableEq, Repr

/-- `mso_file_extract(data)`: check the magic, read the 16-bit little-endian
value at 0x1E and add 46, try that offset then 0x32 then 0x22A, then every
0x78 byte position; first successful inflation wins, exhaustion is the
terminal error. -/
def mso_file_extract (inflate : List Nat → Option (List Nat)) (data : List Nat) :
    Except MsoErr (List Nat) :=
  if ¬ is_mso_file data then .error .assertionError
  else
    match readLE16 (data.drop 0x1E) with
    | none => .error .headerStructError
    | some v =>
      match tryOffsets inflate data [v + 46, 0x32, 0x22A] with
      | some out => .ok out
      | none =>
        match tryOffsets inflate data (zlibPositions data) with
        | some out => .ok out
        | none => .error .noZlibCandidate

lemma tryOffsets_append (inflate : List Nat → Option (List Nat)) (data : List Nat)
    (l1 l2 : List Nat) :
    tryOffsets inflate data (l1 ++ l2) =
      match tryOffsets inflate data l1 with
      | some out => some out
      | none => tryOffsets inflate data l2 := by
  induction l1 with
  | nil => simp [tryOffsets]
  | cons o rest ih =>
    simp only [List.cons_append, tryOffsets]
    cases inflate (data.drop o) with
    | none => exact ih
    | some out => rfl

/-- C6: with the ActiveMime magic present and a readable header, `unwrap`
returns exactly the first successful inflation over the candidate list
`[le16@0x1E + 46, 0x32, 0x22A] ++ (positions of 0x78 bytes)`, in that
order; when every candidate fails it raises the terminal error — it never
falls back to returning empty output. -/
theorem claim_C6_mso_offsets (inflate : List Nat → Option (List Nat)) (data : List Nat) (v : Nat)
    (hmagic : is_mso_file data = true)
    (hv : readLE16 (data.drop 0x1E) = some v) :
    (mso_file_extract inflate data =
      match tryOffsets inflate data ((v + 46) :: 0x32 :: 0x22A :: zlibPositions data) with
      | some out => .ok out
      | none => .error .noZlibCandidate) ∧
    ((∀ o ∈ (v + 46) :: 0x32 :: 0x22A :: zlibPositions data, inflate (data.drop o) = none) →
      mso_file_extract inflate data = .error .noZlibCandidate) := by
  have hmain : mso_file_extract inflate data =
      match tryOffsets inflate data ((v + 46) :: 0x32 :: 0x22A :: zlibPositions data) with
      | some out => .ok out
      | none => .error .noZlibCandidate := by
    have hconc : (v + 46) :: 0x32 :: 0x22A :: zlibPositions data =
        [v + 46, 0x32, 0x22A] ++ zlibPositions data := by simp
    rw [hconc, tryOffsets_append]
    simp only [mso_file_extract, hmagic, hv, eq_self_iff_true, not_true, if_false]
    cases tryOffsets inflate data [v + 46, 0x32, 0x22A] with
    | some out => rfl
    | none =>
      cases tryOffsets inflate data (zlibPositions data) with
      | some out => rfl
      | none => rfl
  refine ⟨hmain, fun hall => ?_⟩
  have hnone : ∀ l : List Nat, (∀ o ∈ l, inflate (data.drop o) = none) →
      tryOffsets inflate data l = none := by
    intro l
    induction l with
    | nil => intro _; rfl
    | cons o rest ih =>
      intro hmem
      simp only [tryOffsets, hmem o (by simp)]
      exact ih (fun o' ho' => hmem o' (by simp [ho']))
  rw [hmain, hnone _ hall]

theorem claim_C6_mso_offsets_witness :
    is_mso_file (MSO_ACTIVEMIME_HEADER ++ List.replicate 22 0) = true ∧
    readLE16 ((MSO_ACTIVEMIME_HEADER ++ List.replicate 22 0).drop 0x1E) = some 0 ∧
    mso_file_extract (fun _ => none) (MSO_ACTIVEMIME_HEADER ++ List.replicate 22 0) =
      .error .noZlibCandidate := by
  refine ⟨by decide, by decide, ?_⟩
  have hw := claim_C6_mso_offsets (fun _ => none) (MSO_ACTIVEMIME_HEADER ++ List.replicate 22 0) 0
    (by decide) (by decide)
  exact hw.2 (fun o _ => rfl)

/-! ## Container format detection (`VBA_Parser.__init__`, lines 1968-2003)

Python 2 text strings are embedded as `List Char` with byte-valued
characters.  `olefile.isOleFile` and `zipfile.is_zipfile` are external
library detectors, and each handler (`open_ole`, `open_openxml`,
`open_word2003xml`, `open_mht`, `open_text`) sets `self.type` only when its
own parsing succeeds (each wraps its body in a bare try/except): these seven
outcomes are abstracted as Booleans, while the three content-based checks
(the WordProcessingML namespace string, the case-insensitive
mime/version/multipart triple, and the absence of null bytes) are computed
from the data exactly as the source does. -/

/-- Python `str.lower()` on a byte string: ASCII A-Z only. -/
def asciiLower (c : Char) : Char :=
  if 'A' ≤ c ∧ c ≤ 'Z' then Char.ofNat (c.toNat + 32) else c

/-- `.lower()` over the whole string. -/
def pyLower (s : List Char) : List Char := s.map asciiLower

/-- Generic: does the second list start with the first? (char version). -/
def startsWithC : List Char → List Char → Bool
  | [], _ => true
  | _ :: _, [] => false
  | p :: ps, x :: xs => p = x && startsWithC ps xs

/-- Python's `pat in s` substring test. -/
def containsSubstr (s pat : List Char) : Bool :=
  (List.range (s.length + 1)).any (fun i => startsWithC pat (s.drop i))

/-- The five container classifications of `VBA_Parser` (TYPE_OLE,
TYPE_OpenXML, TYPE_Word2003_XML, TYPE_MHTML, TYPE_TEXT). -/
inductive FileType
  | OLE
  | OpenXML
  | Word2003XML
  | MHTML
  | Text
deriving DecidableEq, Repr

/-- The WordProcessingML namespace whose presence marks a Word 2003 XML
document. -/
def WORDML_NS : List Char :=
  "http://schemas.microsoft.com/office/word/2003/wordml".toList

/-- The detection chain of `VBA_Parser.__init__`: OLE magic, then zip, then
the XML namespace, then the MIME token triple, then no-null-bytes plain
text; `none` is the final `raise TypeError` (the spec's
`UnsupportedFormatError`). -/
def vba_parser_classify (isOle oleOk isZip zipOk xmlOk mhtOk textOk : Bool)
    (data : List Char) : Option FileType :=
  let t : Option FileType := if isOle && oleOk then some .OLE else none
  let t := if t.isNone && (isZip && zipOk) then some .OpenXML else t
  if t.isNone then
    let t := if containsSubstr data WORDML_NS && xmlOk then some .Word2003XML else none
    let lower := pyLower data
    let t := if t.isNone && (containsSubstr lower "mime".toList &&
        containsSubstr lower "version".toList &&
        containsSubstr lower "multipart".toList && mhtOk) then some .MHTML else t
    let t := if t.isNone && (!(data.contains (Char.ofNat 0)) && textOk) then some .Text else t
    t
  else t

/-- The claim's classification chain, written from the spec's words: fixed
detector order, first match wins, no match at all is unsupported. -/
def specClassify (isOle isZip : Bool) (data : List Char) : Option FileType :=
  if isOle then some .OLE
  else if isZip then some .OpenXML
  else if containsSubstr data WORDML_NS then some .Word2003XML
  else if containsSubstr (pyLower data) "mime".toList &&
      containsSubstr (pyLower data) "version".toList &&
      containsSubstr (pyLower data) "multipart".toList then some .MHTML
  else if !(data.contains (Char.ofNat 0)) then some .Text
  else none

/-- C5: when each format handler succeeds on its own input (the `*Ok`
booleans all true), `VBA_Parser.__init__` classifies by the fixed first-
match-wins chain of the claim — OLE magic, zip, WordML namespace,
mime/version/multipart, no-null-bytes text — and when no rule matches it
fails (raises `TypeError`, the spec's `UnsupportedFormatError`, = `none`). -/
theorem claim_C5_classifier_chain (isOle isZip : Bool) (data : List Char) :
    vba_parser_classify isOle true isZip true true true true data =
      specClassify isOle isZip data ∧
    (vba_parser_classify isOle true isZip true true true true data = none ↔
      isOle = false ∧ isZip = false ∧ containsSubstr data WORDML_NS = false ∧
      (containsSubstr (pyLower data) "mime".toList &&
       containsSubstr (pyLower data) "version".toList &&
       containsSubstr (pyLower data) "multipart".toList) = false ∧
      data.contains (Char.ofNat 0) = true) := by
  cases isOle <;> cases isZip <;>
    simp only [vba_parser_classify, specClassify, Bool.and_true, Bool.true_and,
      Bool.and_false, Bool.false_and, if_true, if_false, Option.isNone] <;>
    cases hx : containsSubstr data WORDML_NS <;>
    cases hm : containsSubstr (pyLower data) "mime".toList &&
      containsSubstr (pyLower data) "version".toList &&
      containsSubstr (pyLower data) "multipart".toList <;>
    cases hn : data.contains (Char.ofNat 0) <;>
    simp_all

/-! ## A small regular-expression engine

The scanner functions of olevba are built on Python's `re` module.  The
embedding interprets the exact regexes of the source over an explicit AST
with Python's matching discipline: leftmost match, alternatives tried left
to right, greedy quantifiers with backtracking (first success in that
order, not POSIX-longest).  Recursion is fuel-bounded; every repeated
sub-pattern used by the source consumes at least one character, so the fuel
chosen at the top level always suffices. -/

inductive RE
  | eps
  | anyc
  | lit (c : Char)
  | cls (neg : Bool) (rs : List (Char × Char))
  | seq (a b : RE)
  | alt (a b : RE)
  | rep (r : RE) (lo : Nat) (hi : Option Nat)
  | wordB
deriving DecidableEq, Repr

/-- Python's `\w` (no re.UNICODE): `[a-zA-Z0-9_]`. -/
def isWordChar (c : Char) : Bool :=
  ('A' ≤ c && c ≤ 'Z') || ('a' ≤ c && c ≤ 'z') || ('0' ≤ c && c ≤ '9') || c = '_'

/-- Is there a word boundary at position `p` of `t`? -/
def atWordB (t : List Char) (p : Nat) : Bool :=
  let before := if p = 0 then false else isWordChar (t.getD (p - 1) (Char.ofNat 0))
  let after := if p < t.length then isWordChar (t.getD p (Char.ofNat 0)) else false
  before != after

/-- Single-character comparison, optionally case-insensitive (ASCII case
folding, which is what `(?i)` does on Python 2 byte strings). -/
def charEq (ci : Bool) (a b : Char) : Bool :=
  if ci then asciiLower a = asciiLower b else a = b

/-- Class membership for one range list (without negation). -/
def inRanges (rs : List (Char × Char)) (x : Char) : Bool :=
  rs.any (fun r => r.1 ≤ x && x ≤ r.2)

/-- Class matching: under `(?i)`, a character matches if it or its
case-swapped form is in the set; `neg` negates afterwards. -/
def clsMatch (ci : Bool) (neg : Bool) (rs : List (Char × Char)) (x : Char) : Bool :=
  let other : Char :=
    if 'A' ≤ x ∧ x ≤ 'Z' then Char.ofNat (x.toNat + 32)
    else if 'a' ≤ x ∧ x ≤ 'z' then Char.ofNat (x.toNat - 32)
    else x
  let m := inRanges rs x || (ci && inRanges rs other)
  if neg then !m else m

/-- Decrement an optional repetition bound. -/
def decOpt : Option Nat → Option Nat
  | none => none
  | some n => some (n - 1)

/-- Backtracking matcher in continuation-passing style: `reMatchF ci t fuel
re p k` tries to match `re` at position `p` of `t` and passes each
candidate end position to `k`, in Python's preference order. -/
def reMatchF (ci : Bool) (t : List Char) :
    Nat → RE → Nat → (Nat → Option Nat) → Option Nat
  | 0, _, _, _ => none
  | fuel + 1, re, p, k =>
    match re with
    | .eps => k p
    | .anyc =>
      if p < t.length && t.getD p (Char.ofNat 0) ≠ '\n' then k (p + 1) else none
    | .lit c =>
      if p < t.length && charEq ci c (t.getD p (Char.ofNat 0)) then k (p + 1) else none
    | .cls neg rs =>
      if p < t.length && clsMatch ci neg rs (t.getD p (Char.ofNat 0)) then k (p + 1) else none
    | .wordB => if atWordB t p then k p else none
    | .seq a b => reMatchF ci t fuel a p (fun p2 => reMatchF ci t fuel b p2 k)
    | .alt a b =>
      match reMatchF ci t fuel a p k with
      | some e => some e
      | none => reMatchF ci t fuel b p k
    | .rep r lo hi =>
      if 0 < lo then
        reMatchF ci t fuel r p (fun p2 => reMatchF ci t fuel (.rep r (lo - 1) (decOpt hi)) p2 k)
      else
        match hi with
        | some 0 => k p
        | _ =>
          match reMatchF ci t fuel r p
              (fun p2 => reMatchF ci t fuel (.rep r 0 (decOpt hi)) p2 k) with
          | some e => some e
          | none => k p

/-- Structural size of a regex, used to budget fuel. -/
def reSize : RE → Nat
  | .eps | .anyc | .lit _ | .cls _ _ | .wordB => 1
  | .seq a b | .alt a b => reSize a + reSize b + 1
  | .rep r lo hi => reSize r + lo + (match hi with | none => 0 | some n => n) + 1

/-- Fuel that dominates the recursion depth for the source's patterns (each
repetition step consumes at least one character). -/
def bigFuel (re : RE) (t : List Char) : Nat := (reSize re + 2) * (t.length + 2) + 2

/-- `re.match` at a fixed position: the end of the match Python's engine
finds there, if any. -/
def reMatchAt (ci : Bool) (re : RE) (t : List Char) (p : Nat) : Option Nat :=
  reMatchF ci t (bigFuel re t) re p some

/-- `pattern.finditer(t)`: non-overlapping matches, scanning left to right,
resuming at each match's end (or one past a zero-width match). -/
def finditerAux (ci : Bool) (re : RE) (t : List Char) :
    Nat → Nat → List (Nat × Nat)
  | 0, _ => []
  | fuel + 1, pos =>
    if pos > t.length then []
    else
      match reMatchAt ci re t pos with
      | some e =>
        if pos < e then (pos, e) :: finditerAux ci re t fuel e
        else (pos, e) :: finditerAux ci re t fuel (pos + 1)
      | none => finditerAux ci re t fuel (pos + 1)

def reFinditer (ci : Bool) (re : RE) (t : List Char) : List (Nat × Nat) :=
  finditerAux ci re t (t.length + 2) 0

/-- `re.search`: does the pattern match anywhere? -/
def reSearch (ci : Bool) (re : RE) (t : List Char) : Bool :=
  (List.range (t.length + 1)).any (fun p => (reMatchAt ci re t p).isSome)

/-- `t[a:b]` for `0 ≤ a ≤ b`. -/
def sliceStr (t : List Char) (a b : Nat) : List Char := (t.take b).drop a

/-- Chain a list of regexes in sequence. -/
def seqL (l : List RE) : RE := l.foldr .seq .eps

/-- First-to-last alternation; the empty list never matches. -/
def altL (l : List RE) : RE := l.foldr .alt (.cls false [])

/-- A literal string as a regex. -/
def strRE (s : String) : RE := seqL (s.toList.map .lit)

/-- A character set given by its members. -/
def setRE (s : String) : RE := .cls false (s.toList.map (fun c => (c, c)))

/-! ### The scanner's regexes, transcribed from the source -/

/-- `[0-9A-Fa-f]` -/
def hexDigitRE : RE := .cls false [('0', '9'), ('A', 'F'), ('a', 'f')]

/-- `re_hex_string = (?:[0-9A-Fa-f]{2}){4,}` -/
def re_hex_string : RE := .rep (.seq hexDigitRE hexDigitRE) 4 none

/-- `[A-Za-z0-9+/]` -/
def b64CharRE : RE := .cls false [('A', 'Z'), ('a', 'z'), ('0', '9'), ('+', '+'), ('/', '/')]

/-- `BASE64_RE = (?:[A-Za-z0-9+/]{4}){1,}(?:[A-Za-z0-9+/]{2}[AEIMQUYcgkosw048]=|[A-Za-z0-9+/][AQgw]==)?` -/
def BASE64_RE : RE :=
  .seq (.rep (seqL [b64CharRE, b64CharRE, b64CharRE, b64CharRE]) 1 none)
    (.rep (.alt (seqL [b64CharRE, b64CharRE, setRE "AEIMQUYcgkosw048", .lit '='])
                (seqL [b64CharRE, setRE "AQgw", .lit '=', .lit '='])) 0 (some 1))

/-- `re_base64_string = '"' + BASE64_RE + '"'` -/
def re_base64_string : RE := .seq (.lit '"') (.seq BASE64_RE (.lit '"'))

/-- `re_nothex_check = [G-Zg-z]` -/
def re_nothex_check : RE := .cls false [('G', 'Z'), ('g', 'z')]

/-- `re_dridex_string = "[0-9A-Za-z]{20,}"` -/
def re_dridex_string : RE :=
  .seq (.lit '"') (.seq (.rep (.cls false [('0', '9'), ('A', 'Z'), ('a', 'z')]) 20 none) (.lit '"'))

/-! The IOC patterns (`RE_PATTERNS`), pieced together exactly as the source
concatenates its regex fragments. -/

/-- `NUMBER_0_255 = (?:25[0-5]|2[0-4][0-9]|1[0-9]{2}|[1-9][0-9]|[0-9])` -/
def NUMBER_0_255_RE : RE :=
  altL [seqL [.lit '2', .lit '5', .cls false [('0', '5')]],
        seqL [.lit '2', .cls false [('0', '4')], .cls false [('0', '9')]],
        seqL [.lit '1', .rep (.cls false [('0', '9')]) 2 (some 2)],
        seqL [.cls false [('1', '9')], .cls false [('0', '9')]],
        .cls false [('0', '9')]]

/-- `TLD = (?:xn--[a-zA-Z0-9]{4,20}|[a-zA-Z]{2,20})` -/
def TLD_RE : RE :=
  .alt (seqL [strRE "xn--", .rep (.cls false [('a', 'z'), ('A', 'Z'), ('0', '9')]) 4 (some 20)])
       (.rep (.cls false [('a', 'z'), ('A', 'Z')]) 2 (some 20))

/-- `DNS_NAME = (?:[a-zA-Z0-9\-\.]+\.TLD)` -/
def DNS_NAME_RE : RE :=
  seqL [.rep (.cls false [('a', 'z'), ('A', 'Z'), ('0', '9'), ('-', '-'), ('.', '.')]) 1 none,
        .lit '.', TLD_RE]

/-- `IPv4 = (?:NUMBER_0_255\.){3}NUMBER_0_255` -/
def IPv4_RE : RE :=
  .seq (.rep (.seq NUMBER_0_255_RE (.lit '.')) 3 (some 3)) NUMBER_0_255_RE

/-- `SERVER = (?:IPv4|DNS_NAME)` -/
def SERVER_RE : RE := .alt IPv4_RE DNS_NAME_RE

/-- `PORT = (?:\:[0-9]{1,5})?` -/
def PORT_RE : RE := .rep (.seq (.lit ':') (.rep (.cls false [('0', '9')]) 1 (some 5))) 0 (some 1)

/-- `URL_PATH = (?:/[a-zA-Z0-9\-\._\?\,\'/\\\+&%\$#\=~]*)?` -/
def URL_PATH_RE : RE :=
  .rep (.seq (.lit '/')
    (.rep (.cls false [('a', 'z'), ('A', 'Z'), ('0', '9'), ('-', '-'), ('.', '.'), ('_', '_'),
      ('?', '?'), (',', ','), (Char.ofNat 39, Char.ofNat 39), ('/', '/'), ('\\', '\\'),
      ('+', '+'), ('&', '&'), ('%', '%'), ('$', '$'), ('#', '#'), ('=', '='), ('~', '~')]) 0 none))
    0 (some 1)

/-- `URL_RE = \b(?:http|ftp)s?\://SERVER_PORT URL_PATH` -/
def URL_RE : RE :=
  seqL [.wordB, .alt (strRE "http") (strRE "ftp"), .rep (.lit 's') 0 (some 1),
        .lit ':', .lit '/', .lit '/', SERVER_RE, PORT_RE, URL_PATH_RE]

/-- `(?i)\b[A-Z0-9._%+-]+@SERVER\b` -/
def EMAIL_RE : RE :=
  seqL [.wordB,
        .rep (.cls false [('A', 'Z'), ('0', '9'), ('.', '.'), ('_', '_'), ('%', '%'),
          ('+', '+'), ('-', '-')]) 1 none,
        .lit '@', SERVER_RE, .wordB]

/-- `(?i)\b\w+\.(EXE|...|REG)\b` -/
def EXE_RE : RE :=
  seqL [.wordB, .rep (.cls false [('a', 'z'), ('A', 'Z'), ('0', '9'), ('_', '_')]) 1 none,
        .lit '.',
        altL [strRE "EXE", strRE "PIF", strRE "GADGET", strRE "MSI", strRE "MSP", strRE "MSC",
          strRE "VBS", strRE "VBE", strRE "VB", strRE "JSE", strRE "JS", strRE "WSF",
          strRE "WSC", strRE "WSH", strRE "WS", strRE "BAT", strRE "CMD", strRE "DLL",
          strRE "SCR", strRE "HTA", strRE "CPL", strRE "CLASS", strRE "JAR", strRE "PS1XML",
          strRE "PS1", strRE "PS2XML", strRE "PS2", strRE "PSC1", strRE "PSC2", strRE "SCF",
          strRE "LNK", strRE "INF", strRE "REG"],
        .wordB]

/-- `RE_PATTERNS`: (pattern name, case-insensitive flag, regex). -/
def RE_PATTERNS : List (String × Bool × RE) :=
  [("URL", false, URL_RE),
   ("IPv4 address", false, IPv4_RE),
   ("E-mail address", true, EMAIL_RE),
   ("Executable file name", true, EXE_RE)]

/-! ## Decoders and keyword detectors -/

/-- Hex digit value (`binascii.unhexlify` accepts both cases). -/
def hexDigitVal (c : Char) : Option Nat :=
  if '0' ≤ c ∧ c ≤ '9' then some (c.toNat - 48)
  else if 'A' ≤ c ∧ c ≤ 'F' then some (c.toNat - 55)
  else if 'a' ≤ c ∧ c ≤ 'f' then some (c.toNat - 87)
  else none

/-- `binascii.unhexlify`: pairs of hex digits to bytes; `none` is the
`binascii.Error` raised on an odd length or a non-hex character. -/
def unhexlify : List Char → Option (List Char)
  | [] => some []
  | [_] => none
  | a :: b :: rest => do
    let x ← hexDigitVal a
    let y ← hexDigitVal b
    let r ← unhexlify rest
    pure (Char.ofNat (16 * x + y) :: r)

/-- Base64 alphabet value. -/
def b64Val (c : Char) : Option Nat :=
  if 'A' ≤ c ∧ c ≤ 'Z' then some (c.toNat - 65)
  else if 'a' ≤ c ∧ c ≤ 'z' then some (c.toNat - 97 + 26)
  else if '0' ≤ c ∧ c ≤ '9' then some (c.toNat - 48 + 52)
  else if c = '+' then some 62
  else if c = '/' then some 63
  else none

/-- `base64.b64decode` on an alphabet-only string with trailing `=` padding
(all the candidates fed to it match `BASE64_RE`); `none` is the padding
error raised otherwise. -/
def b64decode : List Char → Option (List Char)
  | [] => some []
  | c1 :: c2 :: c3 :: c4 :: rest => do
    let v1 ← b64Val c1
    let v2 ← b64Val c2
    if c3 = '=' ∧ c4 = '=' ∧ rest = [] then
      pure [Char.ofNat (v1 * 4 + v2 / 16)]
    else if c4 = '=' ∧ rest = [] then do
      let v3 ← b64Val c3
      pure [Char.ofNat (v1 * 4 + v2 / 16), Char.ofNat (v2 % 16 * 16 + v3 / 4)]
    else do
      let v3 ← b64Val c3
      let v4 ← b64Val c4
      let r ← b64decode rest
      pure (Char.ofNat (v1 * 4 + v2 / 16) :: Char.ofNat (v2 % 16 * 16 + v3 / 4) ::
        Char.ofNat (v3 % 4 * 64 + v4) :: r)
  | _ => none

/-- `BASE64_WHITELIST`: lowercase strings that match the base64 regex but
are not base64 (the filter tests `value.lower()` of the ENCODED candidate
against this set — not the decoded form). -/
def BASE64_WHITELIST : List (List Char) :=
  ["thisdocument", "thisworkbook", "test", "temp", "http", "open", "exit"].map String.toList

/-- Python's `s.strip('"')`: remove every leading and trailing `"`. -/
def stripQuotes (s : List Char) : List Char :=
  ((s.dropWhile (· = '"')).reverse.dropWhile (· = '"')).reverse

/-- Python's `s[1:-1]`. -/
def sliceInner (s : List Char) : List Char := (s.drop 1).dropLast

/-- `detect_hex_strings(vba_code)`: deduplicated (encoded, decoded) pairs
for every match of `re_hex_string`; a decode failure would propagate as an
uncaught exception (`none`), though it cannot occur on a regex match. -/
def detect_hex_strings_go (code : List Char) :
    List (Nat × Nat) → List (List Char) → List (List Char × List Char) →
    Option (List (List Char × List Char))
  | [], _, acc => some acc
  | (s, e) :: rest, found, acc =>
    let value := sliceStr code s e
    if value ∈ found then detect_hex_strings_go code rest found acc
    else
      match unhexlify value with
      | none => none
      | some decoded => detect_hex_strings_go code rest (value :: found) (acc ++ [(value, decoded)])

def detect_hex_strings (code : List Char) : Option (List (List Char × List Char)) :=
  detect_hex_strings_go code (reFinditer false re_hex_string code) [] []

/-- `detect_base64_strings(vba_code)`: matches of `re_base64_string`, with
quotes stripped, skipped when they contain no `[G-Zg-z]` character (plain
hex), deduplicated, skipped when `value.lower()` is in the whitelist, and
decoded (a decode error skips just that candidate). -/
def detect_base64_strings_go (code : List Char) :
    List (Nat × Nat) → List (List Char) → List (List Char × List Char) →
    List (List Char × List Char)
  | [], _, acc => acc
  | (s, e) :: rest, found, acc =>
    let value := stripQuotes (sliceStr code s e)
    if ¬ reSearch false re_nothex_check value then
      detect_base64_strings_go code rest found acc
    else if value ∉ found ∧ pyLower value ∉ BASE64_WHITELIST then
      match b64decode value with
      | some decoded =>
        detect_base64_strings_go code rest (value :: found) (acc ++ [(value, decoded)])
      | none => detect_base64_strings_go code rest found acc
    else detect_base64_strings_go code rest found acc

def detect_base64_strings (code : List Char) : List (List Char × List Char) :=
  detect_base64_strings_go code (reFinditer false re_base64_string code) [] []

/-- `detect_dridex_strings(vba_code)`: the decoder lives in
`thirdparty.DridexUrlDecoder` (not part of this repository's sources), so
it is a parameter; a decoding exception skips the candidate. -/
def detect_dridex_strings_go (dridexDecode : List Char → Option (List Char)) (code : List Char) :
    List (Nat × Nat) → List (List Char) → List (List Char × List Char) →
    List (List Char × List Char)
  | [], _, acc => acc
  | (s, e) :: rest, found, acc =>
    let value := sliceInner (sliceStr code s e)
    if ¬ reSearch false re_nothex_check value then
      detect_dridex_strings_go dridexDecode code rest found acc
    else if value ∉ found then
      match dridexDecode value with
      | some decoded =>
        detect_dridex_strings_go dridexDecode code rest (value :: found) (acc ++ [(value, decoded)])
      | none => detect_dridex_strings_go dridexDecode code rest found acc
    else detect_dridex_strings_go dridexDecode code rest found acc

def detect_dridex_strings (dridexDecode : List Char → Option (List Char)) (code : List Char) :
    List (List Char × List Char) :=
  detect_dridex_strings_go dridexDecode code (reFinditer false re_dridex_string code) [] []

/-! ### Keyword tables and keyword search

`detect_autoexec`/`detect_suspicious` build the pattern
`r'(?i)\b' + keyword + r'\b'`, so the keyword text is itself regex syntax:
`.` is a wildcard, and backslash escapes follow Python 2 `re` rules (`\S`
and `\D` are classes, `\f` is form-feed, an unknown letter escape such as
`\C` is that literal letter).  `compileKeyword` interprets exactly those
constructs — the only ones occurring in the tables.

The tables are Python dicts iterated with `.items()`, whose order is an
implementation detail of the hash table; they are embedded in source order
and no theorem below depends on the iteration order. -/

def escClassRE (c : Char) : RE :=
  if c = 'S' then .cls true [(' ', ' '), ('\t', '\t'), ('\n', '\n'), ('\r', '\r'),
    (Char.ofNat 11, Char.ofNat 11), (Char.ofNat 12, Char.ofNat 12)]
  else if c = 's' then .cls false [(' ', ' '), ('\t', '\t'), ('\n', '\n'), ('\r', '\r'),
    (Char.ofNat 11, Char.ofNat 11), (Char.ofNat 12, Char.ofNat 12)]
  else if c = 'D' then .cls true [('0', '9')]
  else if c = 'd' then .cls false [('0', '9')]
  else if c = 'W' then .cls true [('a', 'z'), ('A', 'Z'), ('0', '9'), ('_', '_')]
  else if c = 'w' then .cls false [('a', 'z'), ('A', 'Z'), ('0', '9'), ('_', '_')]
  else if c = 'f' then .lit (Char.ofNat 12)
  else if c = 'n' then .lit '\n'
  else if c = 'r' then .lit '\r'
  else if c = 't' then .lit '\t'
  else .lit c

def compileKeyword : List Char → RE
  | [] => .eps
  | '\\' :: c :: rest => .seq (escClassRE c) (compileKeyword rest)
  | ['\\'] => .eps
  | '.' :: rest => .seq .anyc (compileKeyword rest)
  | c :: rest => .seq (.lit c) (compileKeyword rest)

/-- `r'(?i)\b' + keyword + r'\b'` (the `(?i)` flag is passed separately to
the matcher). -/
def keywordRE (kw : String) : RE := .seq .wordB (.seq (compileKeyword kw.toList) .wordB)

/-- `AUTOEXEC_KEYWORDS`, in source order. -/
def AUTOEXEC_KEYWORDS : List (String × List String) :=
  [("Runs when the Word document is opened",
     ["AutoExec", "AutoOpen", "Document_Open", "DocumentOpen"]),
   ("Runs when the Word document is closed",
     ["AutoExit", "AutoClose", "Document_Close", "DocumentBeforeClose"]),
   ("Runs when the Word document is modified", ["DocumentChange"]),
   ("Runs when a new Word document is created", ["AutoNew", "Document_New", "NewDocument"]),
   ("Runs when the Excel Workbook is opened",
     ["Auto_Open", "Workbook_Open", "Workbook_Activate"]),
   ("Runs when the Excel Workbook is closed", ["Auto_Close", "Workbook_Close"])]

/-- `SUSPICIOUS_KEYWORDS`, in source order. -/
def SUSPICIOUS_KEYWORDS : List (String × List String) :=
  [("May read system environment variables", ["Environ"]),
   ("May open a file", ["Open"]),
   ("May write to a file (if combined with Open)", ["Write", "Put", "Output", "Print #"]),
   ("May read or write a binary file (if combined with Open)", ["Binary"]),
   ("May copy a file", ["FileCopy", "CopyFile"]),
   ("May delete a file", ["Kill"]),
   ("May create a text file", ["CreateTextFile", "ADODB.Stream", "WriteText", "SaveToFile"]),
   ("May run an executable file or a system command",
     ["Shell", "vbNormal", "vbNormalFocus", "vbHide", "vbMinimizedFocus", "vbMaximizedFocus",
      "vbNormalNoFocus", "vbMinimizedNoFocus", "WScript.Shell", "Run"]),
   ("May run PowerShell commands",
     ["PowerShell", "noexit", "ExecutionPolicy", "noprofile", "command", "EncodedCommand",
      "invoke-command", "scriptblock", "Invoke-Expression", "AuthorizationManager"]),
   ("May run an executable file or a system command using PowerShell", ["Start-Process"]),
   ("May hide the application", ["Application.Visible", "ShowWindow", "SW_HIDE"]),
   ("May create a directory", ["MkDir"]),
   ("May save the current workbook", ["ActiveWorkbook.SaveAs"]),
   ("May change which directory contains files to open at startup",
     ["Application.AltStartupPath"]),
   ("May create an OLE object", ["CreateObject"]),
   ("May create an OLE object using PowerShell", ["New-Object"]),
   ("May run an application (if combined with CreateObject)", ["Shell.Application"]),
   ("May enumerate application windows (if combined with Shell.Application object)",
     ["Windows", "FindWindow"]),
   ("May run code from a DLL", ["Lib"]),
   ("May inject code into another process", ["CreateThread", "VirtualAlloc"]),
   ("May download files from the Internet",
     ["URLDownloadToFileA", "Msxml2.XMLHTTP", "Microsoft.XMLHTTP", "MSXML2.ServerXMLHTTP",
      "User-Agent"]),
   ("May download files from the Internet using PowerShell",
     ["Net.WebClient", "DownloadFile", "DownloadString"]),
   ("May control another application by simulating user keystrokes",
     ["SendKeys", "AppActivate"]),
   ("May attempt to obfuscate malicious function calls", ["CallByName"]),
   ("May attempt to obfuscate specific strings", ["Chr", "ChrB", "ChrW", "StrReverse", "Xor"]),
   ("May read or write registry keys", ["RegOpenKeyExA", "RegOpenKeyEx", "RegCloseKey"]),
   ("May read registry keys", ["RegQueryValueExA", "RegQueryValueEx", "RegRead"]),
   ("May detect virtualization",
     ["SYSTEM\\ControlSet001\\Services\\Disk\\Enum", "VIRTUAL", "VMWARE", "VBOX"]),
   ("May detect Anubis Sandbox",
     ["GetVolumeInformationA", "GetVolumeInformation", "1824245000",
      "HKEY_LOCAL_MACHINE\\SOFTWARE\\Microsoft\\Windows NT\\CurrentVersion\\ProductId",
      "76487-337-8429955-22614", "andy", "sample", "C:\\exec\\exec.exe", "popupkiller"]),
   ("May detect Sandboxie", ["SbieDll.dll", "SandboxieControlWndClass"]),
   ("May detect Sunbelt Sandbox", ["C:\\file.exe"]),
   ("May detect Norman Sandbox", ["currentuser"]),
   ("May detect CW Sandbox", ["Schmidti"]),
   ("May detect WinJail Sandbox", ["Afx:400000:0"])]

/-- The `' (obfuscation: %s)'` suffix appended to descriptions when
scanning a decoded buffer. -/
def obfText : Option String → List Char
  | none => []
  | some o => " (obfuscation: ".toList ++ o.toList ++ ")".toList

/-- `detect_autoexec(vba_code, obfuscation)`. -/
def detect_autoexec (code : List Char) (obf : Option String) : List (List Char × List Char) :=
  (AUTOEXEC_KEYWORDS.map (fun d =>
    (d.2.filter (fun kw => reSearch true (keywordRE kw) code)).map
      (fun kw => (kw.toList, d.1.toList ++ obfText obf)))).flatten

/-- `detect_suspicious(vba_code, obfuscation)`. -/
def detect_suspicious (code : List Char) (obf : Option String) : List (List Char × List Char) :=
  (SUSPICIOUS_KEYWORDS.map (fun d =>
    (d.2.filter (fun kw => reSearch true (keywordRE kw) code)).map
      (fun kw => (kw.toList, d.1.toList ++ obfText obf)))).flatten

/-- `detect_patterns(vba_code, obfuscation)`: IOC extraction with
first-occurrence deduplication of the matched value across all patterns of
one call. -/
def detect_patterns_go (code : List Char) (obf : Option String) :
    List ((String × Bool × RE) × (Nat × Nat)) → List (List Char) →
    List (List Char × List Char) → List (List Char × List Char)
  | [], _, acc => acc
  | (p, (s, e)) :: rest, found, acc =>
    let value := sliceStr code s e
    if value ∈ found then detect_patterns_go code obf rest found acc
    else detect_patterns_go code obf rest (value :: found)
      (acc ++ [(p.1.toList ++ obfText obf, value)])

def detect_patterns (code : List Char) (obf : Option String) : List (List Char × List Char) :=
  detect_patterns_go code obf
    ((RE_PATTERNS.map (fun p => (reFinditer p.2.1 p.2.2 code).map (fun m => (p, m)))).flatten) [] []

/-! ## C8: hex-string detection deduplication -/

/-- First-occurrence deduplication relative to an already-seen list. -/
def dedupFirstAux {α : Type} [DecidableEq α] : List α → List α → List α
  | _, [] => []
  | seen, x :: xs =>
    if x ∈ seen then dedupFirstAux seen xs else x :: dedupFirstAux (x :: seen) xs

/-- First-occurrence-wins deduplication, insertion order preserved. -/
def dedupFirst {α : Type} [DecidableEq α] (l : List α) : List α := dedupFirstAux [] l

lemma dedupFirstAux_not_mem_seen {α : Type} [DecidableEq α] :
    ∀ (l seen : List α) (x : α), x ∈ dedupFirstAux seen l → x ∉ seen := by
  intro l
  induction l with
  | nil => intro seen x hx; simp [dedupFirstAux] at hx
  | cons y ys ih =>
    intro seen x hx
    by_cases hy : y ∈ seen
    · simp only [dedupFirstAux, if_pos hy] at hx
      exact ih seen x hx
    · simp only [dedupFirstAux, if_neg hy] at hx
      rcases List.mem_cons.mp hx with rfl | hx
      · exact hy
      · have := ih (y :: seen) x hx
        intro hmem
        exact this (by simp [hmem])

lemma dedupFirstAux_nodup {α : Type} [DecidableEq α] :
    ∀ (l seen : List α), (dedupFirstAux seen l).Nodup := by
  intro l
  induction l with
  | nil => intro seen; simp [dedupFirstAux]
  | cons y ys ih =>
    intro seen
    by_cases hy : y ∈ seen
    · simpa [dedupFirstAux, if_pos hy] using ih seen
    · simp only [dedupFirstAux, if_neg hy, List.nodup_cons]
      refine ⟨fun hmem => ?_, ih (y :: seen)⟩
      exact dedupFirstAux_not_mem_seen ys (y :: seen) y hmem (by simp)

lemma detect_hex_strings_go_spec (code : List Char) :
    ∀ (ms : List (Nat × Nat)) (found : List (List Char)) (acc : List (List Char × List Char))
      (res : List (List Char × List Char)),
      detect_hex_strings_go code ms found acc = some res →
      res.map Prod.fst = acc.map Prod.fst ++
        dedupFirstAux found (ms.map (fun m => sliceStr code m.1 m.2)) := by
  intro ms
  induction ms with
  | nil =>
    intro found acc res h
    simp only [detect_hex_strings_go] at h
    cases h
    simp [dedupFirstAux]
  | cons m rest ih =>
    intro found acc res h
    simp only [detect_hex_strings_go] at h
    by_cases hmem : sliceStr code m.1 m.2 ∈ found
    · rw [if_pos hmem] at h
      have := ih found acc res h
      simp only [List.map_cons, dedupFirstAux, if_pos hmem]
      exact this
    · rw [if_neg hmem] at h
      cases hdec : unhexlify (sliceStr code m.1 m.2) with
      | none => rw [hdec] at h; cases h
      | some decoded =>
        rw [hdec] at h
        have := ih (sliceStr code m.1 m.2 :: found)
          (acc ++ [(sliceStr code m.1 m.2, decoded)]) res h
        simp only [List.map_append, List.map_cons, List.map_nil] at this
        simp only [List.map_cons, dedupFirstAux, if_neg hmem]
        rw [this]
        simp

/-- C8: in one scan pass, `detect_hex_strings` returns each matched
candidate at most once — its encoded values are exactly the
first-occurrence deduplication of the regex's match list (insertion order
preserved), and contain no duplicates.  (Every candidate is decoded by
`unhexlify`; a decode failure — impossible for a match of the hex regex —
would abort the call rather than duplicate anything.) -/
theorem claim_C8_hex_dedup (code : List Char) (res : List (List Char × List Char))
    (h : detect_hex_strings code = some res) :
    res.map Prod.fst =
      dedupFirst ((reFinditer false re_hex_string code).map (fun m => sliceStr code m.1 m.2)) ∧
    (res.map Prod.fst).Nodup := by
  have hspec := detect_hex_strings_go_spec code (reFinditer false re_hex_string code) [] [] res h
  simp only [List.map_nil, List.nil_append] at hspec
  refine ⟨hspec, ?_⟩
  rw [hspec]
  exact dedupFirstAux_nodup _ _

theorem claim_C8_hex_dedup_witness :
    detect_hex_strings "x 41424344 y 41424344 z 53616d706c65".toList =
      some [("41424344".toList, "ABCD".toList), ("53616d706c65".toList, "Sample".toList)] ∧
    ([("41424344".toList, "ABCD".toList), ("53616d706c65".toList, "Sample".toList)].map
        Prod.fst =
      dedupFirst ((reFinditer false re_hex_string "x 41424344 y 41424344 z 53616d706c65".toList).map
        (fun m => sliceStr "x 41424344 y 41424344 z 53616d706c65".toList m.1 m.2)) ∧
      ([("41424344".toList, "ABCD".toList), ("53616d706c65".toList, "Sample".toList)].map
        Prod.fst).Nodup) :=
  ⟨by decide,
   claim_C8_hex_dedup "x 41424344 y 41424344 z 53616d706c65".toList
     [("41424344".toList, "ABCD".toList), ("53616d706c65".toList, "Sample".toList)] (by decide)⟩

/-! ## C3: the base64 whitelist filters the ENCODED candidate, not the
decoded form -/

/-- C3 counterexample: the candidate `"dGVzdA=="`, whose decoded lowercase
form is the whitelisted token `"test"`, is NOT excluded — it appears in the
Base64 String findings with decoded value `"test"`.  The claim as stated is
false on the code. -/
theorem claim_C3_counterexample :
    detect_base64_strings "a \"dGVzdA==\" b".toList =
      [("dGVzdA==".toList, "test".toList)] ∧
    pyLower "test".toList ∈ BASE64_WHITELIST := by
  constructor
  · decide
  · decide

lemma detect_base64_strings_go_whitelist (code : List Char) :
    ∀ (ms : List (Nat × Nat)) (found : List (List Char)) (acc : List (List Char × List Char)),
      (∀ p ∈ acc, pyLower p.1 ∉ BASE64_WHITELIST) →
      ∀ p ∈ detect_base64_strings_go code ms found acc, pyLower p.1 ∉ BASE64_WHITELIST := by
  intro ms
  induction ms with
  | nil =>
    intro found acc hacc p hp
    simp only [detect_base64_strings_go] at hp
    exact hacc p hp
  | cons m rest ih =>
    intro found acc hacc p hp
    simp only [detect_base64_strings_go] at hp
    by_cases h1 : ¬ reSearch false re_nothex_check (stripQuotes (sliceStr code m.1 m.2)) = true
    · rw [if_pos h1] at hp
      exact ih found acc hacc p hp
    · rw [if_neg h1] at hp
      by_cases h2 : stripQuotes (sliceStr code m.1 m.2) ∉ found ∧
          pyLower (stripQuotes (sliceStr code m.1 m.2)) ∉ BASE64_WHITELIST
      · rw [if_pos h2] at hp
        cases hdec : b64decode (stripQuotes (sliceStr code m.1 m.2)) with
        | none =>
          rw [hdec] at hp
          exact ih found acc hacc p hp
        | some decoded =>
          rw [hdec] at hp
          refine ih _ _ ?_ p hp
          intro q hq
          rcases List.mem_append.mp hq with hq | hq
          · exact hacc q hq
          · simp only [List.mem_singleton] at hq
            subst hq
            exact h2.2
      · rw [if_neg h2] at hp
        exact ih found acc hacc p hp

/-- C3 amended: the whitelist filter applies to the candidate's own
lowercase (encoded) form, not to its decoded form.  No finding's encoded
value lowercases into `BASE64_WHITELIST`; in particular the quoted literal
`"test"` (which matches the strict grammar) is excluded, while
`"dGVzdA=="` — decoding to the whitelisted word — is reported (see the
counterexample). -/
theorem claim_C3_whitelist_on_encoded :
    (∀ (code : List Char) (p : List Char × List Char),
      p ∈ detect_base64_strings code → pyLower p.1 ∉ BASE64_WHITELIST) ∧
    detect_base64_strings "a \"test\" b".toList = [] := by
  constructor
  · intro code p hp
    exact detect_base64_strings_go_whitelist code _ [] [] (by intro q hq; cases hq) p hp
  · decide

theorem claim_C3_whitelist_on_encoded_witness :
    ("dGVzdA==".toList, "test".toList) ∈
      detect_base64_strings "a \"dGVzdA==\" b".toList ∧
    pyLower "dGVzdA==".toList ∉ BASE64_WHITELIST :=
  ⟨by decide,
   claim_C3_whitelist_on_encoded.1 "a \"dGVzdA==\" b".toList
     ("dGVzdA==".toList, "test".toList) (by decide)⟩

/-! ## Expression evaluator values and `vba_chr_tostr` -/

/-- The two-variant value type of the evaluator: `plain` is an ordinary
Python `str` (a bare quoted literal), `expr` is a `VbaExpressionString` —
the subclass marker that tags every value produced by evaluating a VBA
expression, so later stages can tell decoded payloads from plain quoted
strings. -/
inductive VbaVal
  | plain (s : List Char)
  | expr (s : List Char)
deriving DecidableEq, Repr

/-- The character data of a value. -/
def VbaVal.str : VbaVal → List Char
  | .plain s => s
  | .expr s => s

/-- UTF-8 encoding of a code point (Python 2 `unichr(i).encode('utf-8')`;
Python 2 encodes lone surrogates by the same formula rather than
rejecting them). -/
def utf8Encode (c : Nat) : List Nat :=
  if c < 0x80 then [c]
  else if c < 0x800 then [0xC0 ||| (c >>> 6), 0x80 ||| (c &&& 0x3F)]
  else if c < 0x10000 then
    [0xE0 ||| (c >>> 12), 0x80 ||| ((c >>> 6) &&& 0x3F), 0x80 ||| (c &&& 0x3F)]
  else
    [0xF0 ||| (c >>> 18), 0x80 ||| ((c >>> 12) &&& 0x3F), 0x80 ||| ((c >>> 6) &&& 0x3F),
     0x80 ||| (c &&& 0x3F)]

/-- Python 2's `'%r' % i` for an integer argument: the decimal digits, plus
an `L` suffix when the value lies outside the machine-int range and is
therefore a `long`.  (Whether a boundary value is `int` or `long` in Python
depends on its arithmetic history; this range form is exact for every value
an expression built from in-range literals can produce, and the theorems
below stay inside the machine-int range.) -/
def pyReprInt (i : Int) : List Char :=
  (toString i).toList ++ (if i < -(2 ^ 63) ∨ (2 ^ 63 : Int) ≤ i then ['L'] else [])

/-- `vba_chr_tostr(t)` (olevba.py lines 660-670): 0-255 maps to the byte
directly; other code points accepted by `unichr` are UTF-8 encoded (this is
the wide-build behaviour; a narrow build would also reject 0x10000-0x10FFFF
— no theorem relies on that zone); any `ValueError` (negative or too-large
code point) is caught and degraded to the placeholder string
`'Chr(%r)' % i`.  Every branch returns a `VbaExpressionString`. -/
def vba_chr_tostr (i : Int) : VbaVal :=
  if 0 ≤ i ∧ i ≤ 255 then .expr [Char.ofNat i.toNat]
  else if 0 ≤ i ∧ i < 0x110000 then .expr ((utf8Encode i.toNat).map Char.ofNat)
  else .expr ("Chr(".toList ++ pyReprInt i ++ ")".toList)

/-- C9: whenever the evaluated Chr/ChrB/ChrW argument cannot be converted to
a character — negative, or beyond the last code point — `vba_chr_tostr`
returns the synthetic placeholder `Chr(<argument>)` naming the failed call
(still tagged as an expression value) instead of letting the exception
escape; evaluation is total, so one malformed fragment cannot abort the
scan. -/
theorem claim_C9_chr_placeholder (i : Int)
    (hrange : -(2 ^ 63) ≤ i ∧ i < 2 ^ 63)
    (hbad : i < 0 ∨ (0x110000 : Int) ≤ i) :
    vba_chr_tostr i = .expr ("Chr(".toList ++ (toString i).toList ++ ")".toList) := by
  have h1 : ¬ (0 ≤ i ∧ i ≤ 255) := by omega
  have h2 : ¬ (0 ≤ i ∧ i < 0x110000) := by omega
  simp [vba_chr_tostr, h1, h2, pyReprInt]
  omega

theorem claim_C9_chr_placeholder_witness :
    (-(2 ^ 63) ≤ (-1 : Int) ∧ (-1 : Int) < 2 ^ 63) ∧ ((-1 : Int) < 0 ∨ (0x110000 : Int) ≤ -1) ∧
    vba_chr_tostr (-1) = .expr ("Chr(".toList ++ (toString (-1 : Int)).toList ++ ")".toList) :=
  ⟨⟨by norm_num, by norm_num⟩, Or.inl (by norm_num),
   claim_C9_chr_placeholder (-1) ⟨by norm_num, by norm_num⟩ (Or.inl (by norm_num))⟩

/-! ## The VBA string/integer expression grammar

The source builds this grammar with pyparsing; the embedding is a
recursive-descent parser with pyparsing's semantics: `MatchFirst` (`|`)
takes the first alternative that matches, each terminal skips leading
whitespace (pyparsing's default whitespace set is space, newline, tab),
`Combine` forbids whitespace between its parts, `Keyword` requires word
boundaries (word characters: alphanumerics, `_` and `$`), and
`infixNotation` levels parse `item (op item)*` left-associatively, firing
their parse action only when at least one operator is present.

Two documented divergences, on paths no claim exercises: a Python-level
exception escaping a parse action (`ord` of a non-single-character string
in `Asc`, `int()` of a non-numeric string in `Val`, a zero divisor in `/`)
would abort the entire scan in Python but is modelled as a failed parse
here. -/

/-- pyparsing default whitespace: `' '`, `'\n'`, `'\t'`. -/
def isPyparseWs (c : Char) : Bool := c = ' ' || c = '\n' || c = '\t'

def skipWsAux (t : List Char) : Nat → Nat → Nat
  | 0, p => p
  | fuel + 1, p =>
    if p < t.length ∧ isPyparseWs (t.getD p ' ') then skipWsAux t fuel (p + 1) else p

def skipWs (t : List Char) (p : Nat) : Nat := skipWsAux t (t.length + 1) p

/-- `vba_identifier_chars = alphanums + '_'` (MS-VBAL 3.3.5). -/
def identChar (c : Char) : Bool := isWordChar c

/-- pyparsing `Keyword` word characters: `alphanums + "_$"`. -/
def kwChar (c : Char) : Bool := isWordChar c || c = '$'

/-- Match a literal word caselessly at `p` (no whitespace skipping —
used inside `Combine`/`CaselessLiteral`). -/
def matchCaseless (t : List Char) (p : Nat) : List Char → Option Nat
  | [] => some p
  | c :: cs =>
    if p < t.length ∧ asciiLower (t.getD p ' ') = asciiLower c then
      matchCaseless t (p + 1) cs
    else none

/-- `WordStart(vba_identifier_chars)`: position 0, or the previous character
is not an identifier character. -/
def wordStartOK (t : List Char) (p : Nat) : Bool :=
  p = 0 || !identChar (t.getD (p - 1) ' ')

/-- `CaselessKeyword(w)` at `p` (after whitespace skipping): caseless match
with word boundaries on both sides. -/
def parseKw (t : List Char) (p : Nat) (w : String) : Option Nat := do
  if p = 0 ∨ ¬ kwChar (t.getD (p - 1) ' ') then
    let e ← matchCaseless t p w.toList
    if e < t.length ∧ kwChar (t.getD e ' ') then none else some e
  else none

/-- Longest run of characters satisfying `pred` starting at `p`. -/
def takeCharsAux (t : List Char) (pred : Char → Bool) : Nat → Nat → Nat
  | 0, p => p
  | fuel + 1, p =>
    if p < t.length ∧ pred (t.getD p ' ') then takeCharsAux t pred fuel (p + 1) else p

def takeChars (t : List Char) (pred : Char → Bool) (p : Nat) : Nat :=
  takeCharsAux t pred (t.length + 1) p

/-- `Word(initChars, bodyChars)`: at least one character; first from
`init`, rest from `body`; maximal munch. -/
def parseWord (t : List Char) (p : Nat) (init body : Char → Bool) : Option Nat :=
  if p < t.length ∧ init (t.getD p ' ') then some (takeChars t body (p + 1)) else none

/-- `QuotedString('"', escQuote='""')` content after the opening quote:
doubled quotes collapse to one, newlines terminate the match. -/
def parseQSBody (t : List Char) : Nat → Nat → Option (List Char × Nat)
  | 0, _ => none
  | fuel + 1, p =>
    if p < t.length then
      let c := t.getD p ' '
      if c = '"' then
        if p + 1 < t.length ∧ t.getD (p + 1) ' ' = '"' then
          (parseQSBody t fuel (p + 2)).map (fun r => ('"' :: r.1, r.2))
        else some ([], p + 1)
      else if c = '\n' ∨ c = '\r' then none
      else (parseQSBody t fuel (p + 1)).map (fun r => (c :: r.1, r.2))
    else none

def parseQuotedString (t : List Char) (p : Nat) : Option (List Char × Nat) :=
  if p < t.length ∧ t.getD p ' ' = '"' then parseQSBody t (t.length + 1) (p + 1) else none

/-- One `(op item)*` chain with pyparsing backtracking: if the operator
matches but the following item does not, stop before the operator. -/
def chainTail {α : Type} (item : List Char → Nat → Option (α × Nat)) (opc : Char)
    (t : List Char) : Nat → Nat → List α → List α × Nat
  | 0, p, acc => (acc, p)
  | fuel + 1, p, acc =>
    let q := skipWs t p
    if q < t.length ∧ t.getD q ' ' = opc then
      match item t (q + 1) with
      | some (v, p2) => chainTail item opc t fuel p2 (acc ++ [v])
      | none => (acc, p)
    else (acc, p)

/-- One `infixNotation` level: `item (op item)*`; `act` is the parse action
fired when at least one operator was consumed (it may fail — a Python
exception in the action, see the divergence note above). -/
def chainLevel {α : Type} (item : List Char → Nat → Option (α × Nat)) (opc : Char)
    (act : List α → Option α) (t : List Char) (p : Nat) : Option (α × Nat) := do
  let (v, p1) ← item t p
  let (vs, p2) := chainTail item opc t (t.length + 1) p1 [v]
  if vs.length = 1 then pure (v, p1)
  else do
    let r ← act vs
    pure (r, p2)

/-- Python's `str.strip()` whitespace set. -/
def isPyStripWs (c : Char) : Bool :=
  c = ' ' || c = '\t' || c = '\n' || c = '\r' || c = Char.ofNat 11 || c = Char.ofNat 12

def pyStrip (s : List Char) : List Char :=
  ((s.dropWhile isPyStripWs).reverse.dropWhile isPyStripWs).reverse

def isDigitC (c : Char) : Bool := '0' ≤ c && c ≤ '9'

def digitsVal (ds : List Char) : Nat := ds.foldl (fun a c => a * 10 + (c.toNat - 48)) 0

/-- Python `int(s)` for a stripped string: optional sign then at least one
digit, nothing else. -/
def pyIntOfStr (s : List Char) : Option Int :=
  let core : List Char → Option Int := fun ds =>
    if ds ≠ [] ∧ ds.all isDigitC then some (digitsVal ds : Int) else none
  match s with
  | '+' :: ds => core ds
  | '-' :: ds => (core ds).map Int.neg
  | ds => core ds

def hexVal (ds : List Char) : Nat :=
  ds.foldl (fun a c => a * 16 + ((hexDigitVal c).getD 0)) 0

def octVal (ds : List Char) : Nat := ds.foldl (fun a c => a * 8 + (c.toNat - 48)) 0

/-- The mutually recursive pyparsing grammar, built one nesting generation
at a time: `strE` is `vba_expr_str`, `intE` is `vba_expr_int`.  Nested
sub-expressions (function-call arguments) use the previous generation;
every nesting step consumes input, so `length + 2` generations always
suffice. -/
structure VbaParsers where
  strE : List Char → Nat → Option (VbaVal × Nat)
  intE : List Char → Nat → Option (Int × Nat)

/-- `Chr/ChrB/ChrW/Chr$(int-expr)`: `Combine(WordStart + CaselessLiteral('Chr')
+ Optional(B|W) + Optional('$')) + '(' + vba_expr_int + ')'`. -/
def parseChrCall (prev : VbaParsers) (t : List Char) (q : Nat) : Option (VbaVal × Nat) := do
  if wordStartOK t q then
    let e1 ← matchCaseless t q "Chr".toList
    let e2 := if e1 < t.length ∧ (asciiLower (t.getD e1 ' ') = 'b' ∨
        asciiLower (t.getD e1 ' ') = 'w') then e1 + 1 else e1
    let e3 := if e2 < t.length ∧ t.getD e2 ' ' = '$' then e2 + 1 else e2
    let q2 := skipWs t e3
    if q2 < t.length ∧ t.getD q2 ' ' = '(' then
      let (v, p3) ← prev.intE t (q2 + 1)
      let q4 := skipWs t p3
      if q4 < t.length ∧ t.getD q4 ' ' = ')' then pure (vba_chr_tostr v, q4 + 1) else none
    else none
  else none

/-- `StrReverse(str-expr)`. -/
def parseStrReverseCall (prev : VbaParsers) (t : List Char) (q : Nat) : Option (VbaVal × Nat) := do
  let e ← parseKw t q "StrReverse"
  let q2 := skipWs t e
  if q2 < t.length ∧ t.getD q2 ' ' = '(' then
    let (v, p3) ← prev.strE t (q2 + 1)
    let q4 := skipWs t p3
    if q4 < t.length ∧ t.getD q4 ' ' = ')' then pure (.expr v.str.reverse, q4 + 1) else none
  else none

/-- `Environ(str-expr)`: rendered as `%name%`. -/
def parseEnvironCall (prev : VbaParsers) (t : List Char) (q : Nat) : Option (VbaVal × Nat) := do
  let e ← parseKw t q "Environ"
  let q2 := skipWs t e
  if q2 < t.length ∧ t.getD q2 ' ' = '(' then
    let (v, p3) ← prev.strE t (q2 + 1)
    let q4 := skipWs t p3
    if q4 < t.length ∧ t.getD q4 ' ' = ')' then
      pure (.expr ('%' :: v.str ++ ['%']), q4 + 1)
    else none
  else none

/-- `latin_identifier = Word(alphas, alphanums + '_')`. -/
def parseLatinIdent (t : List Char) (q : Nat) : Option Nat :=
  parseWord t q (fun c => ('A' ≤ c && c ≤ 'Z') || ('a' ≤ c && c ≤ 'z')) identChar

def isHexDigitC (c : Char) : Bool := (hexDigitVal c).isSome

/-- `Combine(Word(hexnums, exact=2) * (2, None))`: an even run of at least
four hex digits with no intervening whitespace. -/
def parseHexPairs (t : List Char) (q : Nat) : Option (List Char × Nat) :=
  let e := takeChars t isHexDigitC q
  let n := e - q
  let n2 := n - n % 2
  if 4 ≤ n2 then some (sliceStr t q (q + n2), q + n2) else none

/-- `identifier("hexpairs")` → hex-decoded bytes (`hex_function_call`). -/
def parseHexFunctionCall (t : List Char) (q : Nat) : Option (VbaVal × Nat) := do
  let e ← parseLatinIdent t q
  let q2 := skipWs t e
  if q2 < t.length ∧ t.getD q2 ' ' = '(' then
    let q3 := skipWs t (q2 + 1)
    if q3 < t.length ∧ t.getD q3 ' ' = '"' then
      let (hx, p4) ← parseHexPairs t (q3 + 1)
      if p4 < t.length ∧ t.getD p4 ' ' = '"' then
        let decoded ← unhexlify hx
        let q5 := skipWs t (p4 + 1)
        if q5 < t.length ∧ t.getD q5 ' ' = ')' then pure (.expr decoded, q5 + 1) else none
      else none
    else none
  else none

/-- `identifier("base64")` → base64-decoded bytes (`base64_function_call`);
the argument is matched by `Regex(BASE64_RE)`. -/
def parseB64FunctionCall (t : List Char) (q : Nat) : Option (VbaVal × Nat) := do
  let e ← parseLatinIdent t q
  let q2 := skipWs t e
  if q2 < t.length ∧ t.getD q2 ' ' = '(' then
    let q3 := skipWs t (q2 + 1)
    if q3 < t.length ∧ t.getD q3 ' ' = '"' then
      let p4 ← reMatchAt false BASE64_RE t (q3 + 1)
      if p4 < t.length ∧ t.getD p4 ' ' = '"' then
        let decoded ← b64decode (sliceStr t (q3 + 1) p4)
        let q5 := skipWs t (p4 + 1)
        if q5 < t.length ∧ t.getD q5 ' ' = ')' then pure (.expr decoded, q5 + 1) else none
      else none
    else none
  else none

/-- `Asc(str-expr)` → code of the single character (`ord` raises on any
other length: modelled as parse failure, see the divergence note). -/
def parseAscCall (prev : VbaParsers) (t : List Char) (q : Nat) : Option (Int × Nat) := do
  let e ← parseKw t q "Asc"
  let q2 := skipWs t e
  if q2 < t.length ∧ t.getD q2 ' ' = '(' then
    let (v, p3) ← prev.strE t (q2 + 1)
    let q4 := skipWs t p3
    if q4 < t.length ∧ t.getD q4 ' ' = ')' then
      match v.str with
      | [c] => pure ((c.toNat : Int), q4 + 1)
      | _ => none
    else none
  else none

/-- `Val(str-expr)` → `int(s.strip())` (a `ValueError` is modelled as parse
failure, see the divergence note). -/
def parseValCall (prev : VbaParsers) (t : List Char) (q : Nat) : Option (Int × Nat) := do
  let e ← parseKw t q "Val"
  let q2 := skipWs t e
  if q2 < t.length ∧ t.getD q2 ' ' = '(' then
    let (v, p3) ← prev.strE t (q2 + 1)
    let q4 := skipWs t p3
    if q4 < t.length ∧ t.getD q4 ' ' = ')' then do
      let n ← pyIntOfStr (pyStrip v.str)
      pure (n, q4 + 1)
    else none
  else none

/-- `decimal_literal`: `Combine(WordStart + Word(nums) +
Suppress(Optional(Word('%&^', exact=1))))`. -/
def parseDecimalLit (t : List Char) (q : Nat) : Option (Int × Nat) :=
  if wordStartOK t q then
    match parseWord t q isDigitC isDigitC with
    | none => none
    | some e =>
      let e2 := if e < t.length ∧ (t.getD e ' ' = '%' ∨ t.getD e ' ' = '&' ∨
          t.getD e ' ' = '^') then e + 1 else e
      some ((digitsVal (sliceStr t q e) : Int), e2)
  else none

/-- `octal_literal`: `&` or `&o`/`&O`, octal digits, optional suffix. -/
def parseOctalLit (t : List Char) (q : Nat) : Option (Int × Nat) :=
  if q < t.length ∧ t.getD q ' ' = '&' then
    let q1 := if q + 1 < t.length ∧ asciiLower (t.getD (q + 1) ' ') = 'o' then q + 2 else q + 1
    match parseWord t q1 (fun c => '0' ≤ c && c ≤ '7') (fun c => '0' ≤ c && c ≤ '7') with
    | none => none
    | some e =>
      let e2 := if e < t.length ∧ (t.getD e ' ' = '%' ∨ t.getD e ' ' = '&' ∨
          t.getD e ' ' = '^') then e + 1 else e
      some ((octVal (sliceStr t q1 e) : Int), e2)
  else none

/-- `hex_literal`: `&h`/`&H`, hex digits, optional suffix. -/
def parseHexLit (t : List Char) (q : Nat) : Option (Int × Nat) := do
  let e1 ← matchCaseless t q "&h".toList
  match parseWord t e1 isHexDigitC isHexDigitC with
  | none => none
  | some e =>
    let e2 := if e < t.length ∧ (t.getD e ' ' = '%' ∨ t.getD e ' ' = '&' ∨
        t.getD e ' ' = '^') then e + 1 else e
    some ((hexVal (sliceStr t e1 e) : Int), e2)

/-- `concat_strings_list`: join `tokens[0][::2]` and wrap as a
`VbaExpressionString`. -/
def concat_strings_list (vs : List VbaVal) : Option VbaVal :=
  some (.expr (vs.map VbaVal.str).flatten)

/-- One generation of the grammar. -/
def mkVbaParsers : Nat → VbaParsers
  | 0 => ⟨fun _ _ => none, fun _ _ => none⟩
  | fuel + 1 =>
    let prev := mkVbaParsers fuel
    -- vba_expr_str_item = vba_chr | strReverse | environ | quoted_string
    --                   | hex_function_call | base64_function_call
    let strItem : List Char → Nat → Option (VbaVal × Nat) := fun t p =>
      let q := skipWs t p
      match parseChrCall prev t q with
      | some r => some r
      | none =>
      match parseStrReverseCall prev t q with
      | some r => some r
      | none =>
      match parseEnvironCall prev t q with
      | some r => some r
      | none =>
      match parseQuotedString t q with
      | some (s, e) => some (.plain s, e)
      | none =>
      match parseHexFunctionCall t q with
      | some r => some r
      | none => parseB64FunctionCall t q
    -- infixNotation levels for strings: '+' binds tighter than '&'
    let strPlus : List Char → Nat → Option (VbaVal × Nat) := fun t p =>
      chainLevel strItem '+' concat_strings_list t p
    let strE : List Char → Nat → Option (VbaVal × Nat) := fun t p =>
      chainLevel strPlus '&' concat_strings_list t p
    -- vba_expr_int_item = vba_asc | vba_val | integer
    let intItem : List Char → Nat → Option (Int × Nat) := fun t p =>
      let q := skipWs t p
      match parseAscCall prev t q with
      | some r => some r
      | none =>
      match parseValCall prev t q with
      | some r => some r
      | none =>
      match parseDecimalLit t q with
      | some r => some r
      | none =>
      match parseOctalLit t q with
      | some r => some r
      | none => parseHexLit t q
    -- infixNotation levels for integers: '*', then '/', then '-', then '+'
    let intMul : List Char → Nat → Option (Int × Nat) := fun t p =>
      chainLevel intItem '*' (fun vs => some (vs.foldl (· * ·) 1)) t p
    let intDiv : List Char → Nat → Option (Int × Nat) := fun t p =>
      chainLevel intMul '/'
        (fun vs =>
          match vs with
          | [] => none
          | v :: rest => rest.foldlM (fun a b => if b = 0 then none else some (Int.fdiv a b)) v)
        t p
    let intSub : List Char → Nat → Option (Int × Nat) := fun t p =>
      chainLevel intDiv '-'
        (fun vs =>
          match vs with
          | [] => none
          | v :: rest => some (rest.foldl (· - ·) v))
        t p
    let intAdd : List Char → Nat → Option (Int × Nat) := fun t p =>
      chainLevel intSub '+' (fun vs => some (vs.foldl (· + ·) 0)) t p
    ⟨strE, intAdd⟩

/-- `vba_expr_str` parsing at a position, with enough grammar generations
for any nesting the input can hold. -/
def vbaExprStrAt (t : List Char) (p : Nat) : Option (VbaVal × Nat) :=
  (mkVbaParsers (t.length + 2)).strE t p

/-- `vba_expr_str.scanString(code)`: try each position left to right
(skipping leading whitespace first), emit a match and resume at its end. -/
def scanStringAux (t : List Char) : Nat → Nat → List (Nat × Nat × VbaVal)
  | 0, _ => []
  | fuel + 1, loc =>
    if loc ≤ t.length then
      let pre := skipWs t loc
      match vbaExprStrAt t pre with
      | some (v, e) =>
        if pre < e then (pre, e, v) :: scanStringAux t fuel e
        else scanStringAux t fuel (pre + 1)
      | none => scanStringAux t fuel (pre + 1)
    else []

def scanVbaExprStr (t : List Char) : List (Nat × Nat × VbaVal) :=
  scanStringAux t (t.length + 2) 0

/-- Python's `str.expandtabs()` (tab size 8, column reset at newlines). -/
def expandtabsAux : List Char → Nat → List Char
  | [], _ => []
  | c :: rest, col =>
    if c = '\t' then
      List.replicate (8 - col % 8) ' ' ++ expandtabsAux rest (col + (8 - col % 8))
    else if c = '\n' ∨ c = '\r' then c :: expandtabsAux rest 0
    else c :: expandtabsAux rest (col + 1)

def expandtabs (s : List Char) : List Char := expandtabsAux s 0

/-- `detect_vba_strings(vba_code)`: scan the tab-expanded code for string
expressions, keep only `VbaExpressionString` results that differ from their
source span, deduplicated by the encoded span. -/
def detect_vba_strings_go (ex : List Char) :
    List (Nat × Nat × VbaVal) → List (List Char) → List (List Char × List Char) →
    List (List Char × List Char)
  | [], _, acc => acc
  | (s, e, v) :: rest, found, acc =>
    let encoded := sliceStr ex s e
    match v with
    | .expr decoded =>
      if encoded ∉ found ∧ decoded ≠ encoded then
        detect_vba_strings_go ex rest (encoded :: found) (acc ++ [(encoded, decoded)])
      else detect_vba_strings_go ex rest found acc
    | .plain _ => detect_vba_strings_go ex rest found acc

def detect_vba_strings (code : List Char) : List (List Char × List Char) :=
  let ex := expandtabs code
  detect_vba_strings_go ex (scanVbaExprStr ex) [] []

/-! ## `VBA_Scanner.scan` -/

/-- Python `s.replace(pat, rep)` (all non-overlapping occurrences, left to
right); `pat` is never empty at the call sites. -/
def replaceAllAux (pat rep : List Char) : Nat → List Char → List Char
  | 0, s => s
  | _fuel + 1, [] => []
  | fuel + 1, c :: rest =>
    if startsWithC pat (c :: rest) then
      rep ++ replaceAllAux pat rep fuel ((c :: rest).drop pat.length)
    else c :: replaceAllAux pat rep fuel rest

def replaceAll (s pat rep : List Char) : List Char := replaceAllAux pat rep s.length s

/-- `vba_collapse_long_lines`: continuation-line underscores become
spaces. -/
def vba_collapse_long_lines (code : List Char) : List Char :=
  replaceAll (replaceAll (replaceAll code " _\r\n".toList " ".toList)
    " _\r".toList " ".toList) " _\n".toList " ".toList

/-- `is_printable`: only characters of Python's `string.printable`
(0x20-0x7E plus tab/newline/vertical-tab/form-feed/carriage-return). -/
def is_printable (s : List Char) : Bool :=
  s.all (fun c => (32 ≤ c.toNat ∧ c.toNat ≤ 126) ∨ (9 ≤ c.toNat ∧ c.toNat ≤ 13))

/-- First-occurrence deduplication of (keyword, description) pairs by
keyword, tagging each with a finding type — the three `keyword_set` loops
at the end of `scan`. -/
def dedupFindings (ftype : String) (key : List Char × List Char → List Char)
    (emit : List Char × List Char → List Char × List Char) :
    List (List Char × List Char) → List (List Char) →
    List (List Char × List Char × List Char)
  | [], _ => []
  | p :: rest, seen =>
    if key p ∈ seen then dedupFindings ftype key emit rest seen
    else
      let e := emit p
      (ftype.toList, e.1, e.2) :: dedupFindings ftype key emit rest (key p :: seen)

/-- `VBA_Scanner(vba_code).scan(include_decoded_strings, deobfuscate)`:
the full result list — AutoExec findings, Suspicious findings (including
the synthesized per-decoder entries), IOC findings, then the decoded
strings of each decoder (filtered to printable unless
`include_decoded_strings`).  The Dridex decoder is an external module, so
it is a parameter.  `none` models an exception escaping the scan (a decode
failure on a reversed hex string, which cannot happen on real matches).

The keyword tables are iterated by Python in hash order; the embedding
iterates them in source order, so the relative order of two different
matched keywords inside one category block is not part of what is proved
below — the C7 statement only depends on which findings exist, and on the
concrete scans at hand at most one table keyword matches. -/
def scan (dridexDecode : List Char → Option (List Char)) (vbaCodeRaw : List Char)
    (includeDecodedStrings deobfuscate : Bool) :
    Option (List (List Char × List Char × List Char)) := do
  let code := vba_collapse_long_lines vbaCodeRaw
  let hex_strings ← detect_hex_strings code
  let strRev := containsSubstr (pyLower code) "strreverse".toList
  let code_hex := (hex_strings.map (fun p => '\n' :: p.2)).flatten
  let code_hex_rev :=
    if strRev then (hex_strings.map (fun p => '\n' :: p.2.reverse)).flatten else []
  let code_rev_hex ←
    if strRev then
      (hex_strings.mapM (fun p => unhexlify p.1.reverse)).map
        (fun ds => (ds.map ('\n' :: ·)).flatten)
    else pure []
  let base64_strings := detect_base64_strings code
  let code_base64 := (base64_strings.map (fun p => '\n' :: p.2)).flatten
  let dridex_strings := detect_dridex_strings dridexDecode code
  let code_dridex := (dridex_strings.map (fun p => '\n' :: p.2)).flatten
  let vba_strings := if deobfuscate then detect_vba_strings code else []
  let code_vba := (vba_strings.map (fun p => '\n' :: p.2)).flatten
  let bufs : List (List Char × Option String) :=
    [(code, none), (code_hex, some "Hex"), (code_hex_rev, some "Hex+StrReverse"),
     (code_rev_hex, some "StrReverse+Hex"), (code_base64, some "Base64"),
     (code_dridex, some "Dridex"), (code_vba, some "VBA expression")]
  let autoexec_keywords := (bufs.map (fun b => detect_autoexec b.1 b.2)).flatten
  let suspicious_keywords := (bufs.map (fun b => detect_suspicious b.1 b.2)).flatten
    ++ (if hex_strings ≠ [] then
        [("Hex Strings".toList,
          "Hex-encoded strings were detected, may be used to obfuscate strings (option --decode to see all)".toList)]
      else [])
    ++ (if base64_strings ≠ [] then
        [("Base64 Strings".toList,
          "Base64-encoded strings were detected, may be used to obfuscate strings (option --decode to see all)".toList)]
      else [])
    ++ (if dridex_strings ≠ [] then
        [("Dridex Strings".toList,
          "Dridex-encoded strings were detected, may be used to obfuscate strings (option --decode to see all)".toList)]
      else [])
    ++ (if vba_strings ≠ [] then
        [("VBA obfuscated Strings".toList,
          "VBA string expressions were detected, may be used to obfuscate strings (option --decode to see all)".toList)]
      else [])
  let iocs := (bufs.map (fun b => detect_patterns b.1 b.2)).flatten
  let results :=
    dedupFindings "AutoExec" Prod.fst id autoexec_keywords []
    ++ dedupFindings "Suspicious" Prod.fst id suspicious_keywords []
    ++ dedupFindings "IOC" Prod.snd (fun p => (p.2, p.1)) iocs []
    ++ (hex_strings.filter
        (fun p => includeDecodedStrings || is_printable p.2)).map
        (fun p => ("Hex String".toList, p.2, p.1))
    ++ (base64_strings.filter
        (fun p => includeDecodedStrings || is_printable p.2)).map
        (fun p => ("Base64 String".toList, p.2, p.1))
    ++ (dridex_strings.filter
        (fun p => includeDecodedStrings || is_printable p.2)).map
        (fun p => ("Dridex string".toList, p.2, p.1))
    ++ (vba_strings.filter
        (fun p => includeDecodedStrings || is_printable p.2)).map
        (fun p => ("VBA string".toList, p.2, p.1))
  pure results

/-- The findings of `scan` on `Chr(72) & Chr(105)` without deobfuscation:
only the `Chr` suspicious keyword. -/
def c7ResultsPlain : List (List Char × List Char × List Char) :=
  [("Suspicious".toList, "Chr".toList, "May attempt to obfuscate specific strings".toList)]

/-- The findings with `deobfuscate=True`: the `Chr` keyword, the
synthesized VBA-obfuscation marker, and the decoded `VBA string` pair. -/
def c7ResultsDeobf : List (List Char × List Char × List Char) :=
  [("Suspicious".toList, "Chr".toList, "May attempt to obfuscate specific strings".toList),
   ("Suspicious".toList, "VBA obfuscated Strings".toList,
    "VBA string expressions were detected, may be used to obfuscate strings (option --decode to see all)".toList),
   ("VBA string".toList, "Hi".toList, "Chr(72) & Chr(105)".toList)]

set_option maxRecDepth 100000 in
set_option maxHeartbeats 4000000 in
/-- C7: the fragment `Chr(72) & Chr(105)` evaluates to the decoded value
`"Hi"` tagged as a `VbaExpressionString` (an expression-obfuscated value,
distinct from a plain literal), and that decoded result appears in the
scan's findings exactly when `deobfuscate=True` (for either value of
`include_decoded_strings`; `"Hi"` is printable).  The Dridex decoder —
third-party code outside this repository — never runs on this source (no
quoted 20-character alphanumeric run), as the third conjunct states for
every possible decoder, so fixing it in the scan conjunct loses nothing. -/
theorem claim_C7_chr_expression :
    scanVbaExprStr (expandtabs "Chr(72) & Chr(105)".toList) =
      [(0, 18, VbaVal.expr "Hi".toList)] ∧
    detect_vba_strings "Chr(72) & Chr(105)".toList =
      [("Chr(72) & Chr(105)".toList, "Hi".toList)] ∧
    (∀ f : List Char → Option (List Char),
      detect_dridex_strings f (vba_collapse_long_lines "Chr(72) & Chr(105)".toList) = []) ∧
    (∀ inc b : Bool,
      scan (fun _ => none) "Chr(72) & Chr(105)".toList inc b =
        some (if b then c7ResultsDeobf else c7ResultsPlain) ∧
      ((if b then c7ResultsDeobf else c7ResultsPlain).any
        (fun t => t.2.1 = "Hi".toList)) = b) := by
  refine ⟨by decide, by decide, fun f => rfl, ?_⟩
  intro inc b
  cases inc <;> cases b
  · exact ⟨by decide, by decide⟩
  · exact ⟨by decide, by decide⟩
  · exact ⟨by decide, by decide⟩
  · exact ⟨by decide, by decide⟩

end Olevba
